import Mathlib

/-!
# libkiwix: search-result pagination, row building and listing helpers

A shallow embedding of `buildPagination`, of the constructors and the
row-building part of `SearchRenderer` (`src/search_renderer.cpp`), of
`humanFriendlyTitle`, `getTagList` and the book loop of
`HTMLDumper::dumpPlainHTML` (`src/html_dumper.cpp`), and of `kiwix::join`,
followed by the properties established about them.

Conventions of the embedding:

* `unsigned int` values are natural numbers below `UINT_MOD = 2^32`; every
  arithmetic operation the source performs on them that can leave that range
  is reduced modulo `UINT_MOD`, the way the machine does it.
* a `kainjow::mustache::data` object whose keys are known is a structure with
  one field per key; a key that the source sets only on some paths is an
  `Option` field.
* a function that can abort, throw or loop forever returns `Option` or
  `Except`; the `for` loop of `buildPagination` runs on fuel.
-/

namespace kiwix

/-- Number of values of the C++ type `unsigned int` (32 bits). -/
def UINT_MOD : Nat := 4294967296

/-- Modelled from the spec: `kiwix::to_string` is declared in
`tools/stringTools.h`, which is not among the sources; the spec calls its
result the decimal rendering of the number ("1-based label", "start offset").
It is the usual base-10 numeral without sign or padding. -/
def to_string (n : Nat) : String := Nat.repr n

/-- One element of the `pages` list: the keys `label`, `start` and `current`
set on each `page` object in `buildPagination`. -/
structure Page where
  label : String
  start : String
  current : Bool
deriving DecidableEq, Repr

/-- The object returned by `buildPagination`: the keys `itemsPerPage`,
`hasPages` and `pages`. -/
structure Pagination where
  itemsPerPage : String
  hasPages : Bool
  pages : List Page
deriving DecidableEq, Repr

/-- The page object pushed before the window (lines 119-123). -/
def firstMarker : Page := ⟨"◀", to_string 0, false⟩

/-- The page object pushed after the window (lines 135-139). -/
def lastMarker (lastPageStart : Nat) : Page := ⟨"▶", to_string lastPageStart, false⟩

/-- The page object built by one iteration of the loop (lines 127-130), with
the `unsigned int` arithmetic of `i+1` and `i*pageLength`. -/
def pageEntry (pageLength currentPage i : Nat) : Page :=
  ⟨to_string ((i + 1) % UINT_MOD), to_string ((i * pageLength) % UINT_MOD), i == currentPage⟩

/-- The loop `for (auto i=firstPageGenerated; i<=lastPageGenerated; i++)`
(lines 126-132), started at counter `i` with the list built so far. One unit
of fuel is spent per evaluation of the loop condition; `none` means the fuel
ran out before the condition became false. -/
def pageLoop (pageLength currentPage lastPageGenerated : Nat) :
    Nat → Nat → List Page → Option (List Page)
  | 0, _, _ => none
  | fuel + 1, i, pages =>
    if i ≤ lastPageGenerated then
      pageLoop pageLength currentPage lastPageGenerated fuel ((i + 1) % UINT_MOD)
        (pages ++ [pageEntry pageLength currentPage i])
    else
      some pages

/-- Fuel given to the loop of `buildPagination`. The loop state is the 32-bit
counter alone, so a run that evaluates its condition more than `UINT_MOD`
times has revisited a counter value and never ends. -/
def loopFuel : Nat := UINT_MOD + 1

/-- The function `buildPagination` (lines 89-147). `none` stands for a call
that does not return: the failed `assert(pageLength!=0)`, or a loop that
does not end. -/
def buildPagination (pageLength resultsCount resultsStart : Nat) : Option Pagination :=
  if pageLength = 0 then none
  else if resultsCount = 0 then
    some ⟨to_string pageLength, false, []⟩
  else
    let currentPage := resultsStart / pageLength
    let lastPage := (resultsCount - 1) / pageLength
    let lastPageStart := (lastPage * pageLength) % UINT_MOD
    let nbPages := (lastPage + 1) % UINT_MOD
    let firstPageGenerated := if currentPage > 4 then currentPage - 4 else 0
    let lastPageGenerated := min ((currentPage + 4) % UINT_MOD) lastPage
    let hasPages : Bool := decide (firstPageGenerated < lastPageGenerated)
    if nbPages ≠ 1 then
      let pages₁ : List Page := if firstPageGenerated ≠ 0 then [firstMarker] else []
      match pageLoop pageLength currentPage lastPageGenerated loopFuel
          firstPageGenerated pages₁ with
      | none => none
      | some pages₂ =>
        let pages₃ :=
          if lastPageGenerated ≠ lastPage then pages₂ ++ [lastMarker lastPageStart] else pages₂
        some ⟨to_string pageLength, hasPages, pages₃⟩
    else
      some ⟨to_string pageLength, hasPages, []⟩

/-- A page object is a jump marker when its label is one of the two arrows;
the entries of the window carry a decimal numeral instead. -/
def Page.isMarker (p : Page) : Bool := p.label == "◀" || p.label == "▶"

/-- The entries of a page list that are not jump markers. -/
def normalEntries (pages : List Page) : List Page := pages.filter (fun p => !p.isMarker)

/-- Value of `currentPage` (line 109). -/
def currentPageOf (pageLength resultsStart : Nat) : Nat := resultsStart / pageLength

/-- Value of `lastPage` (line 110), for `resultsCount > 0`. -/
def lastPageOf (pageLength resultsCount : Nat) : Nat := (resultsCount - 1) / pageLength

/-- Value of `firstPageGenerated` (line 114). -/
def firstPageGeneratedOf (pageLength resultsStart : Nat) : Nat :=
  if currentPageOf pageLength resultsStart > 4 then currentPageOf pageLength resultsStart - 4 else 0

/-- Value of `lastPageGenerated` (line 115), the sum taken in `unsigned int`. -/
def lastPageGeneratedOf (pageLength resultsCount resultsStart : Nat) : Nat :=
  min ((currentPageOf pageLength resultsStart + 4) % UINT_MOD) (lastPageOf pageLength resultsCount)

/-- A window entry as the specification words it: label `i+1`, start
`i*pageLength`, current iff `i` is the current page; no reduction modulo
`UINT_MOD`. -/
def normalEntry (pageLength currentPage i : Nat) : Page :=
  ⟨to_string (i + 1), to_string (i * pageLength), i == currentPage⟩

/-- The window entries for the page indices `lo, lo+1, ..., hi` (none when
`hi < lo`), in ascending order. -/
def windowEntries (pageLength currentPage lo hi : Nat) : List Page :=
  (List.range' lo (hi + 1 - lo)).map (normalEntry pageLength currentPage)

/-- First page of the window in the specification's words,
`max(currentPage-4, 0)`; subtraction of natural numbers stops at zero. -/
def windowFirst (currentPage : Nat) : Nat := max (currentPage - 4) 0

/-- Last page of the window in the specification's words,
`min(currentPage+4, lastPage)`, the sum taken in the natural numbers. -/
def windowLast (currentPage lastPage : Nat) : Nat := min (currentPage + 4) lastPage

/-- Number of entries of a page list whose `current` flag is set. -/
def currentCount (pages : List Page) : Nat := pages.countP (fun p => p.current)

/-! ### `SearchRenderer::getHtml` -/

/-- One hit of the result set as `getHtml` reads it through the iterator:
`getTitle`, `getPath`, `getSnippet`, `getZimId` and `getWordCount`. -/
structure SearchHit where
  title : String
  path : String
  snippet : String
  zimId : String
  wordCount : Int
deriving DecidableEq, Repr

/-- One element of the `results` list built by `getHtml` (lines 155-171).
`bookTitle = none` is the value `data(false)` set when there is no library;
`wordCount = none` is a row on which the key `wordCount` was never set. -/
structure ResultRow where
  title : String
  url : String
  snippet : String
  resultContentId : String
  bookTitle : Option String
  wordCount : Option String
deriving DecidableEq, Repr

/-- The object `allData` handed to the template (lines 187-198). -/
structure SearchData where
  results : List ResultRow
  hasResults : Bool
  count : String
  searchPattern : String
  searchPatternEncoded : String
  resultStart : String
  resultEnd : String
  protocolPrefix : String
  searchProtocolPrefix : String
  contentId : String
  pagination : Pagination
deriving DecidableEq, Repr

/-- The members of a `SearchRenderer` that `getHtml` reads. The name mapper
and the library are collaborators whose code is not among the sources; each
is the function `getHtml` calls on it, `getNameForId` and
`getBookById(id).getTitle()`, and an exception raised by the call is the
`Except.error` result. `mp_library = none` is the null pointer. -/
structure SearchRenderer where
  m_srs : List SearchHit
  mp_nameMapper : String → Except String String
  mp_library : Option (String → Except String String)
  searchContent : String
  searchPattern : String
  protocolPrefix : String
  searchProtocolPrefix : String
  estimatedResultCount : Nat
  resultStart : Nat
  pageLength : Nat

/-- The helpers of `tools/stringTools.h` and the template engine, used by
`getHtml` and not among the sources, taken as parameters. `render` is
`tmpl.render` followed by the `is_valid` test: `Except.error msg` is an
invalid template with `error_message() = msg`. -/
structure Helpers where
  beautifyInteger : Nat → String
  encodeDiples : String → String
  urlEncode : String → String
  render : SearchData → Except String String

/-- The body of the loop over the hits (lines 155-170): the row built for one
hit. An exception raised by the name mapper or by the library leaves the
body, and nothing in `getHtml` catches it. -/
def resultRow (r : SearchRenderer) (ext : Helpers) (hit : SearchHit) : Except String ResultRow := do
  let resultContentId ← r.mp_nameMapper hit.zimId
  let bookTitle ← match r.mp_library with
    | none => pure none
    | some getTitle => do
      let t ← getTitle hit.zimId
      pure (some t)
  let wordCount :=
    if hit.wordCount ≥ 0 then some (ext.beautifyInteger hit.wordCount.toNat) else none
  pure ⟨hit.title, hit.path, hit.snippet, resultContentId, bookTitle, wordCount⟩

/-- The loop over the hits (lines 154-172), from the hits still to visit and
the `results` list built so far. -/
def resultsLoop (r : SearchRenderer) (ext : Helpers) :
    List SearchHit → List ResultRow → Except String (List ResultRow)
  | [], results => pure results
  | hit :: rest, results => do
    let result ← resultRow r ext hit
    resultsLoop r ext rest (results ++ [result])

/-- The method `SearchRenderer::getHtml` (lines 149-206). `Except.error` is
an exception leaving the method; a call of `buildPagination` that does not
return is reported the same way. -/
def getHtml (r : SearchRenderer) (ext : Helpers) : Except String String := do
  let results ← resultsLoop r ext r.m_srs []
  match buildPagination r.pageLength r.estimatedResultCount r.resultStart with
  | none => throw "buildPagination did not return"
  | some pagination =>
    let resultEnd := min ((r.resultStart + r.pageLength) % UINT_MOD) r.estimatedResultCount
    let allData : SearchData :=
      { results := results
        hasResults := r.estimatedResultCount != 0
        count := ext.beautifyInteger r.estimatedResultCount
        searchPattern := ext.encodeDiples r.searchPattern
        searchPatternEncoded := ext.urlEncode r.searchPattern
        resultStart := to_string ((r.resultStart + 1) % UINT_MOD)
        resultEnd := to_string resultEnd
        protocolPrefix := r.protocolPrefix
        searchProtocolPrefix := r.searchProtocolPrefix
        contentId := r.searchContent
        pagination := pagination }
    match ext.render allData with
    | .error msg => throw ("Error while rendering search results: " ++ msg)
    | .ok html => pure html

/-- A name mapper that knows the single archive id "zim-a" (public name
"wikipedia_en") and raises for every other id. -/
def mapperKnowingOne (id : String) : Except String String :=
  if id = "zim-a" then .ok "wikipedia_en" else .error "std::out_of_range"

/-- Helpers for the examples: identity escapes, decimal numerals, and a
template that renders to the number of rows. -/
def plainHelpers : Helpers :=
  { beautifyInteger := to_string
    encodeDiples := fun s => s
    urlEncode := fun s => s
    render := fun d => .ok (to_string d.results.length) }

/-- A renderer over two hits, the second from an archive the mapper does not
know. -/
def rendererWithUnknownArchive : SearchRenderer :=
  { m_srs := [⟨"Paris", "A/Paris", "capital", "zim-a", 120⟩,
              ⟨"Lyon", "A/Lyon", "city", "zim-b", 80⟩]
    mp_nameMapper := mapperKnowingOne
    mp_library := none
    searchContent := "wikipedia_en"
    searchPattern := "france"
    protocolPrefix := "zim://"
    searchProtocolPrefix := "search://?"
    estimatedResultCount := 2
    resultStart := 0
    pageLength := 25 }

/-- A renderer over two hits of a known archive, the second without a word
count (the search engine reports -1). -/
def rendererWithUnknownWordCount : SearchRenderer :=
  { m_srs := [⟨"Paris", "A/Paris", "capital", "zim-a", 120⟩,
              ⟨"Lyon", "A/Lyon", "city", "zim-a", -1⟩]
    mp_nameMapper := mapperKnowingOne
    mp_library := none
    searchContent := "wikipedia_en"
    searchPattern := "france"
    protocolPrefix := "zim://"
    searchProtocolPrefix := "search://?"
    estimatedResultCount := 2
    resultStart := 0
    pageLength := 25 }

/-! ### The constructors of `SearchRenderer` -/

/-- The parts of a `Searcher` read by the constructor of lines 41-48:
`getSearchResultSet()`, `getEstimatedResultCount()` and `getResultStart()`. -/
structure Searcher where
  getSearchResultSet : List SearchHit
  getEstimatedResultCount : Nat
  getResultStart : Nat

/-- The constructor `SearchRenderer(srs, mapper, library, start,
estimatedResultCount)` (lines 55-64). The member `pageLength` is declared in
the header, which is not among the sources, and no constructor assigns it: its
value is the last parameter. The two strings without initialiser are empty. -/
def SearchRenderer.withLibrary (srs : List SearchHit)
    (mapper : String → Except String String)
    (library : Option (String → Except String String))
    (start estimatedResultCount : Nat) (pageLength : Nat) : SearchRenderer :=
  { m_srs := srs
    mp_nameMapper := mapper
    mp_library := library
    searchContent := ""
    searchPattern := ""
    protocolPrefix := "zim://"
    searchProtocolPrefix := "search://?"
    estimatedResultCount := estimatedResultCount
    resultStart := start
    pageLength := pageLength }

/-- The constructor `SearchRenderer(srs, mapper, start, estimatedResultCount)`
(lines 50-53), which delegates with a null library. -/
def SearchRenderer.fromResultSet (srs : List SearchHit)
    (mapper : String → Except String String)
    (start estimatedResultCount : Nat) (pageLength : Nat) : SearchRenderer :=
  SearchRenderer.withLibrary srs mapper none start estimatedResultCount pageLength

/-- The constructor `SearchRenderer(Searcher*, NameMapper*)` (lines 41-48). It
delegates to the five-argument constructor with the arguments in the order
written in the source: the estimated result count fourth, the result start
fifth. -/
def SearchRenderer.fromSearcher (searcher : Searcher)
    (mapper : String → Except String String) (pageLength : Nat) : SearchRenderer :=
  SearchRenderer.withLibrary searcher.getSearchResultSet mapper none
    searcher.getEstimatedResultCount searcher.getResultStart pageLength

/-- A searcher showing the third page of twenty among 1000 estimated results. -/
def searcherOnThirdPage : Searcher :=
  { getSearchResultSet := []
    getEstimatedResultCount := 1000
    getResultStart := 40 }

/-! ### `html_dumper.cpp` -/

/-- Modelled from the spec: the call `replaceRegex(title, "_", " ")`;
`replaceRegex` is declared in `tools/regexTools.h`, which is not among the
sources. The spec says of it that "underscores become spaces": every
underscore is replaced by one space and nothing else changes. -/
def replaceUnderscores (title : String) : String :=
  ⟨title.data.map (fun c => if c = '_' then ' ' else c)⟩

/-- The function `humanFriendlyTitle` (lines 23-28). `toupper` is the C
library function in the default locale, which maps `a`-`z` to `A`-`Z` and
leaves every other character alone, as `Char.toUpper` does. On the empty
string, index 0 is the terminator, which `toupper` leaves as it is. -/
def humanFriendlyTitle (title : String) : String :=
  let humanFriendlyString := replaceUnderscores title
  match humanFriendlyString.data with
  | [] => humanFriendlyString
  | c :: rest => ⟨c.toUpper :: rest⟩

/-- The scan of `kiwix::split` over the characters still to read, with the
token being read and the tokens already found. -/
def splitLoop (delims : List Char) (dropEmpty keepDelim : Bool) :
    List Char → List Char → List String → List String
  | [], token, tokens =>
    if !dropEmpty || !token.isEmpty then tokens ++ [⟨token⟩] else tokens
  | c :: rest, token, tokens =>
    if c ∈ delims then
      let tokens₁ := if !dropEmpty || !token.isEmpty then tokens ++ [⟨token⟩] else tokens
      let tokens₂ := if keepDelim then tokens₁ ++ [⟨[c]⟩] else tokens₁
      splitLoop delims dropEmpty keepDelim rest [] tokens₂
    else
      splitLoop delims dropEmpty keepDelim rest (token ++ [c]) tokens

/-- Modelled from the spec: `kiwix::split(str, delims, dropEmpty, keepDelim)`
is declared in `tools/stringTools.h`, which is not among the sources. It cuts
`str` at every character of `delims`; with `dropEmpty` the empty tokens are
left out, with `keepDelim` each delimiter is kept as a token of its own. The
spec's example cuts "_ftindex;wikipedia;_pictures" at the semicolons. -/
def split (str delims : String) (dropEmpty keepDelim : Bool) : List String :=
  splitLoop delims.data dropEmpty keepDelim str.data [] []

/-- The character `tag[0]` of a `std::string`: the first character, or the
terminator when the string is empty. -/
def firstChar (tag : String) : Char := tag.data.headD (Char.ofNat 0)

/-- The loop of `getTagList` (lines 34-39) over the tokens still to visit,
with the list built so far. A list element `{"tag", tag}` is its string. -/
def tagLoop : List String → List String → List String
  | [], finalTagList => finalTagList
  | tag :: rest, finalTagList =>
    if firstChar tag ≠ '_' then tagLoop rest (finalTagList ++ [tag])
    else tagLoop rest finalTagList

/-- The function `getTagList` (lines 30-41). -/
def getTagList (tags : String) : List String :=
  tagLoop (split tags ";" true false) []

/-- The accessors of a `Book` read by `dumpPlainHTML`: `getTitle`,
`getDescription`, `getCommaSeparatedLanguages`, `getTags` and `getUrl`. -/
structure Book where
  title : String
  description : String
  commaSeparatedLanguages : String
  tags : String
  url : String
deriving DecidableEq, Repr

/-- One element of `booksData` (lines 81-89). -/
structure BookRow where
  id : String
  title : String
  description : String
  langCode : String
  faviconAttr : String
  tagList : List String
  downloadAvailable : Bool
deriving DecidableEq, Repr

/-- The members of an `HTMLDumper` read by the loop over the books, with the
calls it makes on its collaborators, whose code is not among the sources:
`library->getBookById`, `nameMapper->getNameForId`, and `urlEncode`. An
exception raised by a call is the `Except.error` result. -/
structure HTMLDumper where
  getBookById : String → Except String Book
  getNameForId : String → Except String String
  urlEncode : String → String
  rootLocation : String

/-- The statements `contentId = ""; try { contentId =
urlEncode(nameMapper->getNameForId(bookId)); } catch (...) {}` (lines 70-73). -/
def contentIdOf (d : HTMLDumper) (bookId : String) : String :=
  match d.getNameForId bookId with
  | .ok name => d.urlEncode name
  | .error _ => ""

/-- The row pushed for a book once `getBookById` has returned it (lines
69-89). -/
def bookRow (d : HTMLDumper) (bookId : String) (bookObj : Book) : BookRow :=
  let bookIconUrl := d.rootLocation ++ "/catalog/v2/illustration/" ++ bookId ++ "/?size=48"
  { id := contentIdOf d bookId
    title := bookObj.title
    description := bookObj.description
    langCode := bookObj.commaSeparatedLanguages
    faviconAttr := "style=background-image:url(" ++ bookIconUrl ++ ")"
    tagList := getTagList bookObj.tags
    downloadAvailable := bookObj.url != "" }

/-- The loop over `filteredBooks` in `dumpPlainHTML` (lines 67-90), from the
ids still to visit and the `booksData` built so far. -/
def booksLoop (d : HTMLDumper) : List String → List BookRow → Except String (List BookRow)
  | [], booksData => pure booksData
  | bookId :: rest, booksData => do
    let bookObj ← d.getBookById bookId
    booksLoop d rest (booksData ++ [bookRow d bookId bookObj])

/-- A catalog of two books for the examples; the name mapper knows the first
only. -/
def dumperWithUnmappedBook : HTMLDumper :=
  { getBookById := fun id =>
      if id = "zim-a" then
        .ok ⟨"Wikipedia", "The free encyclopedia", "eng", "_ftindex;wikipedia;_pictures",
          "https://download.example/wikipedia.zim"⟩
      else if id = "zim-b" then .ok ⟨"Gutenberg", "Books", "eng,fra", "books", ""⟩
      else .error "std::out_of_range"
    getNameForId := mapperKnowingOne
    urlEncode := fun s => s
    rootLocation := "/ROOT" }

/-! ### `kiwix::join` -/

/-- The loop of `join` over the strings still to write, with the flag telling
that nothing was written yet and the text written so far. -/
def joinLoop (sep : String) : List String → Bool → String → String
  | [], _, ss => ss
  | s :: rest, first, ss =>
    joinLoop sep rest false ((if first then ss else ss ++ sep) ++ s)

/-- Modelled from the spec: `kiwix::join(list, sep)` is only declared
(`test/stringTools.cpp`, lines 24-26); its body is not among the sources and
the design document does not describe it. The one statement about it is the
test `join({"a","b","c"}, ";") == "a;b;c"`. The model writes the elements in
order into a stream and writes `sep` before every element but the first. -/
def join (list : List String) (sep : String) : String :=
  joinLoop sep list true ""

/-- The non-empty `;`-separated tokens of a tag string, in the words of the
specification: the string is cut at every semicolon and the empty pieces are
left out. -/
def semicolonTokens (tags : String) : List String :=
  ((tags.data.splitOn ';').filter (fun t => !t.isEmpty)).map String.mk

/-- The number a decimal numeral stands for: the digits are read from the
left, each adding its value to ten times what was read before. -/
def decimalValue (numeral : String) : Nat :=
  numeral.data.foldl (fun value c => value * 10 + (c.toNat - 48)) 0

/-- The numeric start offset of a page object, read back from its `start`
string. -/
def startValue (q : Page) : Nat := decimalValue q.start

end kiwix

namespace kiwix

theorem UINT_MOD_eq : UINT_MOD = 4294967296 := rfl

/-! ## Decimal numerals never look like a jump marker -/

theorem digitChar_isDigit (d : Nat) (h : d < 10) : (Nat.digitChar d).isDigit = true := by
  interval_cases d <;> rfl

theorem toDigitsCore_isDigit (fuel : Nat) :
    ∀ (n : Nat) (acc : List Char), (∀ c ∈ acc, c.isDigit = true) →
      ∀ c ∈ Nat.toDigitsCore 10 fuel n acc, c.isDigit = true := by
  induction fuel with
  | zero => intro n acc hacc c hc; exact hacc c (by simpa [Nat.toDigitsCore] using hc)
  | succ k ih =>
    intro n acc hacc c hc
    have hcons : ∀ c ∈ Nat.digitChar (n % 10) :: acc, c.isDigit = true := by
      intro c hc
      rcases List.mem_cons.1 hc with h | h
      · rw [h]; exact digitChar_isDigit _ (Nat.mod_lt _ (by decide))
      · exact hacc c h
    unfold Nat.toDigitsCore at hc
    by_cases h0 : n / 10 = 0
    · simp only [h0, if_true] at hc
      exact hcons c hc
    · simp only [h0, if_false] at hc
      exact ih (n / 10) _ hcons c hc

theorem to_string_isDigit (n : Nat) : ∀ c ∈ (to_string n).data, c.isDigit = true := by
  intro c hc
  have : c ∈ Nat.toDigitsCore 10 (n + 1) n [] := by
    simpa [to_string, Nat.repr, Nat.toDigits, List.asString] using hc
  exact toDigitsCore_isDigit (n + 1) n [] (by simp) c this

theorem to_string_ne_firstArrow (n : Nat) : to_string n ≠ "◀" := by
  intro h
  have := to_string_isDigit n (Char.ofNat 9664) (by rw [h]; decide)
  exact absurd this (by decide)

theorem to_string_ne_lastArrow (n : Nat) : to_string n ≠ "▶" := by
  intro h
  have := to_string_isDigit n (Char.ofNat 9654) (by rw [h]; decide)
  exact absurd this (by decide)

theorem normalEntry_not_marker (pl cp i : Nat) : (normalEntry pl cp i).isMarker = false := by
  simp [normalEntry, Page.isMarker, to_string_ne_firstArrow, to_string_ne_lastArrow]

theorem firstMarker_isMarker : firstMarker.isMarker = true := by decide

theorem lastMarker_isMarker (s : Nat) : (lastMarker s).isMarker = true := by
  simp [lastMarker, Page.isMarker]

/-! ## The loop in closed form -/

theorem pageLoop_eq (pl cp lg : Nat) (hlg : lg + 1 < UINT_MOD) :
    ∀ (fuel i : Nat) (pages : List Page), lg + 1 - i < fuel →
      pageLoop pl cp lg fuel i pages =
        some (pages ++ (List.range' i (lg + 1 - i)).map (pageEntry pl cp)) := by
  intro fuel
  induction fuel with
  | zero => intro i pages h; omega
  | succ k ih =>
    intro i pages h
    unfold pageLoop
    by_cases hi : i ≤ lg
    · have hmod : (i + 1) % UINT_MOD = i + 1 := Nat.mod_eq_of_lt (by omega)
      have hlen : lg + 1 - i = (lg + 1 - (i + 1)) + 1 := by omega
      rw [if_pos hi, hmod, ih (i + 1) _ (by omega), hlen, List.range'_succ]
      simp
    · have hlen : lg + 1 - i = 0 := by omega
      rw [if_neg hi, hlen]
      simp

/-! ## `buildPagination` in closed form -/

theorem buildPagination_of_zero_count (pl rs : Nat) (hpl : 0 < pl) :
    buildPagination pl 0 rs = some ⟨to_string pl, false, []⟩ := by
  unfold buildPagination
  rw [if_neg (by omega : ¬ pl = 0), if_pos rfl]

theorem lastPageOf_mul_le (pl rc : Nat) : lastPageOf pl rc * pl ≤ rc - 1 :=
  Nat.div_mul_le_self (rc - 1) pl

theorem lastPageOf_le (pl rc : Nat) : lastPageOf pl rc ≤ rc - 1 :=
  Nat.div_le_self (rc - 1) pl

theorem lastPageGeneratedOf_le (pl rc rs : Nat) :
    lastPageGeneratedOf pl rc rs ≤ lastPageOf pl rc :=
  Nat.min_le_right _ _

theorem firstPageGeneratedOf_eq (pl rs : Nat) :
    firstPageGeneratedOf pl rs = currentPageOf pl rs - 4 := by
  unfold firstPageGeneratedOf
  split <;> omega

theorem lastPageGeneratedOf_of_no_wrap (pl rc rs : Nat)
    (h : currentPageOf pl rs + 4 < UINT_MOD) :
    lastPageGeneratedOf pl rc rs = min (currentPageOf pl rs + 4) (lastPageOf pl rc) := by
  unfold lastPageGeneratedOf
  rw [Nat.mod_eq_of_lt h]

theorem pageEntry_eq_normalEntry (pl rc cp i : Nat) (hrcW : rc < UINT_MOD)
    (hi : i ≤ lastPageOf pl rc) : pageEntry pl cp i = normalEntry pl cp i := by
  have h1 := lastPageOf_le pl rc
  have h2 := lastPageOf_mul_le pl rc
  have h3 : i * pl ≤ lastPageOf pl rc * pl := Nat.mul_le_mul_right pl hi
  have hW := UINT_MOD_eq
  unfold pageEntry normalEntry
  rw [Nat.mod_eq_of_lt (by omega : i + 1 < UINT_MOD),
    Nat.mod_eq_of_lt (by omega : i * pl < UINT_MOD)]

theorem buildPagination_eq (pl rc rs : Nat) (hpl : 0 < pl) (hrc : 0 < rc)
    (hrcW : rc < UINT_MOD) :
    buildPagination pl rc rs = some
      ⟨to_string pl,
       decide (firstPageGeneratedOf pl rs < lastPageGeneratedOf pl rc rs),
       if lastPageOf pl rc = 0 then [] else
         (if firstPageGeneratedOf pl rs ≠ 0 then [firstMarker] else []) ++
         windowEntries pl (currentPageOf pl rs) (firstPageGeneratedOf pl rs)
           (lastPageGeneratedOf pl rc rs) ++
         (if lastPageGeneratedOf pl rc rs ≠ lastPageOf pl rc
            then [lastMarker (lastPageOf pl rc * pl)] else [])⟩ := by
  have h1 := lastPageOf_le pl rc
  have h2 := lastPageOf_mul_le pl rc
  have h3 := lastPageGeneratedOf_le pl rc rs
  have hW := UINT_MOD_eq
  have hnb : (lastPageOf pl rc + 1) % UINT_MOD = lastPageOf pl rc + 1 :=
    Nat.mod_eq_of_lt (by omega)
  have hstart : (lastPageOf pl rc * pl) % UINT_MOD = lastPageOf pl rc * pl :=
    Nat.mod_eq_of_lt (by omega)
  have hloop := pageLoop_eq pl (currentPageOf pl rs) (lastPageGeneratedOf pl rc rs)
    (by omega) loopFuel (firstPageGeneratedOf pl rs)
    (if firstPageGeneratedOf pl rs ≠ 0 then [firstMarker] else [])
    (by unfold loopFuel; omega)
  have hmap : (List.range' (firstPageGeneratedOf pl rs)
        (lastPageGeneratedOf pl rc rs + 1 - firstPageGeneratedOf pl rs)).map
          (pageEntry pl (currentPageOf pl rs)) =
      windowEntries pl (currentPageOf pl rs) (firstPageGeneratedOf pl rs)
        (lastPageGeneratedOf pl rc rs) := by
    unfold windowEntries
    apply List.map_congr_left
    intro i hi
    have := List.mem_range'_1.1 hi
    exact pageEntry_eq_normalEntry pl rc _ i hrcW (by omega)
  rw [hmap] at hloop
  unfold buildPagination
  rw [if_neg (by omega : ¬ pl = 0), if_neg (by omega : ¬ rc = 0)]
  show (if (lastPageOf pl rc + 1) % UINT_MOD ≠ 1 then
      match pageLoop pl (currentPageOf pl rs) (lastPageGeneratedOf pl rc rs) loopFuel
        (firstPageGeneratedOf pl rs)
        (if firstPageGeneratedOf pl rs ≠ 0 then [firstMarker] else []) with
      | none => none
      | some pages₂ => some (Pagination.mk (to_string pl)
          (decide (firstPageGeneratedOf pl rs < lastPageGeneratedOf pl rc rs))
          (if lastPageGeneratedOf pl rc rs ≠ lastPageOf pl rc
            then pages₂ ++ [lastMarker ((lastPageOf pl rc * pl) % UINT_MOD)] else pages₂))
    else some (Pagination.mk (to_string pl)
      (decide (firstPageGeneratedOf pl rs < lastPageGeneratedOf pl rc rs)) [])) = _
  rw [hnb, hstart, hloop]
  by_cases hlp : lastPageOf pl rc = 0
  · simp [hlp]
  · by_cases hl : lastPageGeneratedOf pl rc rs = lastPageOf pl rc <;> simp [hlp, hl]

/-! ## Markers, window entries and the filters over them -/

theorem normalEntries_append (xs ys : List Page) :
    normalEntries (xs ++ ys) = normalEntries xs ++ normalEntries ys := by
  simp [normalEntries]

theorem normalEntries_windowEntries (pl cp lo hi : Nat) :
    normalEntries (windowEntries pl cp lo hi) = windowEntries pl cp lo hi := by
  unfold normalEntries windowEntries
  rw [List.filter_eq_self]
  intro q hq
  obtain ⟨i, _, rfl⟩ := List.mem_map.1 hq
  simp [normalEntry_not_marker]

theorem normalEntries_firstMarker : normalEntries [firstMarker] = [] := by decide

theorem normalEntries_lastMarker (s : Nat) : normalEntries [lastMarker s] = [] := by
  simp [normalEntries, lastMarker_isMarker]

theorem length_windowEntries (pl cp lo hi : Nat) :
    (windowEntries pl cp lo hi).length = hi + 1 - lo := by
  simp [windowEntries]

theorem windowFirst_eq (cp : Nat) : windowFirst cp = cp - 4 := by
  simp [windowFirst]

theorem currentCount_append (xs ys : List Page) :
    currentCount (xs ++ ys) = currentCount xs + currentCount ys := by
  simp [currentCount]

theorem currentCount_windowEntries (pl cp lo hi : Nat) :
    currentCount (windowEntries pl cp lo hi) = if lo ≤ cp ∧ cp ≤ hi then 1 else 0 := by
  have hcount : currentCount (windowEntries pl cp lo hi) =
      List.count cp (List.range' lo (hi + 1 - lo)) := by
    unfold currentCount windowEntries List.count
    rw [List.countP_map]
    rfl
  rw [hcount, List.count_eq_of_nodup (List.nodup_range' lo (hi + 1 - lo))]
  by_cases h : lo ≤ cp ∧ cp ≤ hi
  · rw [if_pos h, if_pos (List.mem_range'_1.2 (by omega))]
  · rw [if_neg h, if_neg (fun hm => h (by have := List.mem_range'_1.1 hm; omega))]

/-! ## The page list when more than one page exists -/

/-- The `pages` list of `buildPagination_eq` for `lastPage ≠ 0`. -/
theorem buildPagination_multi (pl rc rs : Nat) (hpl : 0 < pl) (hrc : 0 < rc)
    (hrcW : rc < UINT_MOD) (hmulti : lastPageOf pl rc + 1 > 1) :
    ∃ p, buildPagination pl rc rs = some p ∧
      p.hasPages = decide (firstPageGeneratedOf pl rs < lastPageGeneratedOf pl rc rs) ∧
      p.pages =
        (if firstPageGeneratedOf pl rs ≠ 0 then [firstMarker] else []) ++
        windowEntries pl (currentPageOf pl rs) (firstPageGeneratedOf pl rs)
          (lastPageGeneratedOf pl rc rs) ++
        (if lastPageGeneratedOf pl rc rs ≠ lastPageOf pl rc
          then [lastMarker (lastPageOf pl rc * pl)] else []) := by
  refine ⟨_, buildPagination_eq pl rc rs hpl hrc hrcW, rfl, ?_⟩
  show (if lastPageOf pl rc = 0 then [] else _) = _
  rw [if_neg (by omega)]

/-- Without wrap-around of `currentPage+4`, the non-marker entries are the
window of the specification. -/
theorem normalEntries_of_no_wrap (pl rc rs : Nat) (hpl : 0 < pl) (hrc : 0 < rc)
    (hrcW : rc < UINT_MOD) (hmulti : lastPageOf pl rc + 1 > 1)
    (hnw : currentPageOf pl rs + 4 < UINT_MOD) :
    ∃ p, buildPagination pl rc rs = some p ∧
      normalEntries p.pages =
        windowEntries pl (currentPageOf pl rs) (windowFirst (currentPageOf pl rs))
          (windowLast (currentPageOf pl rs) (lastPageOf pl rc)) := by
  obtain ⟨p, hp, -, hpages⟩ := buildPagination_multi pl rc rs hpl hrc hrcW hmulti
  refine ⟨p, hp, ?_⟩
  rw [hpages, normalEntries_append, normalEntries_append, normalEntries_windowEntries,
    lastPageGeneratedOf_of_no_wrap pl rc rs hnw, firstPageGeneratedOf_eq, windowFirst_eq]
  unfold windowLast
  have hA : normalEntries (if currentPageOf pl rs - 4 ≠ 0 then [firstMarker] else []) = [] := by
    split
    · exact normalEntries_firstMarker
    · rfl
  have hB : normalEntries
      (if min (currentPageOf pl rs + 4) (lastPageOf pl rc) ≠ lastPageOf pl rc
        then [lastMarker (lastPageOf pl rc * pl)] else []) = [] := by
    split
    · exact normalEntries_lastMarker _
    · rfl
  rw [hA, hB]
  simp

/-- Without wrap-around of `currentPage+4`, the list ends with the
jump-to-last marker exactly when the window stops before the last page. -/
theorem lastMarker_of_no_wrap (pl rc rs : Nat) (hpl : 0 < pl) (hrc : 0 < rc)
    (hrcW : rc < UINT_MOD) (hmulti : lastPageOf pl rc + 1 > 1)
    (hnw : currentPageOf pl rs + 4 < UINT_MOD) :
    ∃ p, buildPagination pl rc rs = some p ∧
      (p.pages.getLast? = some ⟨"▶", to_string (lastPageOf pl rc * pl), false⟩ ↔
        windowLast (currentPageOf pl rs) (lastPageOf pl rc) < lastPageOf pl rc) := by
  obtain ⟨p, hp, -, hpages⟩ := buildPagination_multi pl rc rs hpl hrc hrcW hmulti
  refine ⟨p, hp, ?_⟩
  rw [hpages, lastPageGeneratedOf_of_no_wrap pl rc rs hnw, firstPageGeneratedOf_eq]
  unfold windowLast
  by_cases hl : min (currentPageOf pl rs + 4) (lastPageOf pl rc) = lastPageOf pl rc
  · rw [hl, if_neg (fun h : lastPageOf pl rc ≠ lastPageOf pl rc => h rfl), List.append_nil]
    have hrhs : ¬ lastPageOf pl rc < lastPageOf pl rc := Nat.lt_irrefl _
    by_cases hw : currentPageOf pl rs - 4 ≤ lastPageOf pl rc
    · have hlen : lastPageOf pl rc + 1 - (currentPageOf pl rs - 4) =
          (lastPageOf pl rc - (currentPageOf pl rs - 4)) + 1 := by omega
      have hlast : currentPageOf pl rs - 4 + (lastPageOf pl rc - (currentPageOf pl rs - 4)) =
          lastPageOf pl rc := by omega
      unfold windowEntries
      rw [hlen, List.range'_concat, List.map_append, ← List.append_assoc]
      simp only [List.map_cons, List.map_nil, List.getLast?_concat, Nat.mul_one, hlast]
      constructor
      · intro h
        have hlabel := congrArg Page.label (Option.some.inj h)
        exact absurd hlabel (to_string_ne_lastArrow _)
      · intro h; exact absurd h hrhs
    · have hlen : lastPageOf pl rc + 1 - (currentPageOf pl rs - 4) = 0 := by omega
      unfold windowEntries
      rw [hlen, if_pos (by omega)]
      simp only [List.range'_zero, List.map_nil, List.append_nil, List.getLast?_singleton]
      constructor
      · intro h
        have hlabel : firstMarker.label = "▶" := congrArg Page.label (Option.some.inj h)
        exact absurd hlabel (by decide)
      · intro h; exact absurd h hrhs
  · have hle : min (currentPageOf pl rs + 4) (lastPageOf pl rc) ≤ lastPageOf pl rc :=
      Nat.min_le_right _ _
    rw [if_pos hl, List.getLast?_concat]
    constructor
    · intro _; omega
    · intro _; rfl

/-! ## Claims about `buildPagination` -/

/-- C1: the window is lost when `currentPage+4` wraps. For pageLength = 1,
resultsCount = 4294967295 and resultsStart = 4294967292 more than one page
exists and the window from `max(currentPage-4, 0)` to
`min(currentPage+4, lastPage)` holds the seven pages 4294967288..4294967294,
yet `buildPagination` returns the two jump markers and no normal entry. -/
theorem window_lost_when_sum_wraps :
    lastPageOf 1 4294967295 + 1 > 1 ∧
    buildPagination 1 4294967295 4294967292 =
      some ⟨"1", false, [⟨"◀", "0", false⟩, ⟨"▶", "4294967294", false⟩]⟩ ∧
    normalEntries [⟨"◀", "0", false⟩, ⟨"▶", "4294967294", false⟩] = [] ∧
    windowEntries 1 (currentPageOf 1 4294967292) (windowFirst (currentPageOf 1 4294967292))
        (windowLast (currentPageOf 1 4294967292) (lastPageOf 1 4294967295)) =
      [⟨"4294967289", "4294967288", false⟩, ⟨"4294967290", "4294967289", false⟩,
       ⟨"4294967291", "4294967290", false⟩, ⟨"4294967292", "4294967291", false⟩,
       ⟨"4294967293", "4294967292", true⟩, ⟨"4294967294", "4294967293", false⟩,
       ⟨"4294967295", "4294967294", false⟩] := by
  decide

/-- C2: with no results and a positive page length, `buildPagination` returns
`hasPages = false`, an empty `pages` list and `itemsPerPage` equal to the
decimal rendering of the page length, whatever the start offset. -/
theorem buildPagination_no_results (pageLength resultsStart : Nat) (hpl : 0 < pageLength) :
    buildPagination pageLength 0 resultsStart = some ⟨to_string pageLength, false, []⟩ := by
  unfold buildPagination
  rw [if_neg (by omega : ¬ pageLength = 0), if_pos rfl]

theorem buildPagination_no_results_witness :
    buildPagination 25 0 7 = some ⟨"25", false, []⟩ :=
  buildPagination_no_results 25 7 (by decide)

/-- C3 as stated fails: for pageLength=10, resultsCount=1000, resultsStart=500
the nine normal entries are not numbered 46 through 54 in the numbering of the
25-result example (whose entries are labelled 1, 2, 3). -/
theorem labels_46_to_54_refuted :
    ¬ ∃ p, buildPagination 10 1000 500 = some p ∧
      (normalEntries p.pages).map Page.label =
        ["46", "47", "48", "49", "50", "51", "52", "53", "54"] := by
  rintro ⟨p, hp, hlabels⟩
  have hval : buildPagination 10 1000 500 = some ⟨"10", true,
      [⟨"◀", "0", false⟩, ⟨"47", "460", false⟩, ⟨"48", "470", false⟩, ⟨"49", "480", false⟩,
       ⟨"50", "490", false⟩, ⟨"51", "500", true⟩, ⟨"52", "510", false⟩, ⟨"53", "520", false⟩,
       ⟨"54", "530", false⟩, ⟨"55", "540", false⟩, ⟨"▶", "990", false⟩]⟩ := by decide
  rw [hval] at hp
  cases hp
  revert hlabels
  decide

/-- C3 as amended: for pageLength=10, resultsCount=1000, resultsStart=500 the
pages list is the jump-to-first marker with start 0, the nine normal entries
labelled 47 through 55 (page indices 46..54, starts 460..540, the entry
labelled 51 current), and the jump-to-last marker with start 990. -/
theorem buildPagination_1000_results :
    buildPagination 10 1000 500 = some ⟨"10", true,
      [⟨"◀", "0", false⟩, ⟨"47", "460", false⟩, ⟨"48", "470", false⟩, ⟨"49", "480", false⟩,
       ⟨"50", "490", false⟩, ⟨"51", "500", true⟩, ⟨"52", "510", false⟩, ⟨"53", "520", false⟩,
       ⟨"54", "530", false⟩, ⟨"55", "540", false⟩, ⟨"▶", "990", false⟩]⟩ := by
  decide

/-- C4 as stated fails: for pageLength=10, resultsCount=25, resultsStart=0 the
window is the whole page range (its first page is 0 and its last page is the
last page), yet `hasPages` is true. -/
theorem hasPages_spanning_window_refuted :
    ∃ p, buildPagination 10 25 0 = some p ∧
      ¬ (p.hasPages = true ↔
          (0 < windowFirst (currentPageOf 10 0) ∨
            windowLast (currentPageOf 10 0) (lastPageOf 10 25) < lastPageOf 10 25)) :=
  ⟨⟨"10", true, [⟨"1", "0", true⟩, ⟨"2", "10", false⟩, ⟨"3", "20", false⟩]⟩,
    by decide, by decide⟩

/-- C4 as amended: for a positive page length, at least one result and a start
offset whose page number plus 4 fits in 32 bits, `hasPages` is true exactly
when the window holds at least two pages, that is when `max(currentPage-4, 0)`
is less than `min(currentPage+4, lastPage)`. -/
theorem hasPages_iff_window_has_two_pages (pageLength resultsCount resultsStart : Nat)
    (hpl : 0 < pageLength) (hrc : 0 < resultsCount) (hrcW : resultsCount < UINT_MOD)
    (hnw : currentPageOf pageLength resultsStart + 4 < UINT_MOD) :
    ∃ p, buildPagination pageLength resultsCount resultsStart = some p ∧
      (p.hasPages = true ↔
        windowFirst (currentPageOf pageLength resultsStart) <
          windowLast (currentPageOf pageLength resultsStart)
            (lastPageOf pageLength resultsCount)) := by
  refine ⟨_, buildPagination_eq pageLength resultsCount resultsStart hpl hrc hrcW, ?_⟩
  show decide (firstPageGeneratedOf pageLength resultsStart <
      lastPageGeneratedOf pageLength resultsCount resultsStart) = true ↔ _
  rw [decide_eq_true_iff, lastPageGeneratedOf_of_no_wrap _ _ _ hnw, firstPageGeneratedOf_eq,
    windowFirst_eq]
  rfl

theorem hasPages_iff_window_has_two_pages_witness :
    ∃ p, buildPagination 10 25 0 = some p ∧
      (p.hasPages = true ↔
        windowFirst (currentPageOf 10 0) < windowLast (currentPageOf 10 0) (lastPageOf 10 25)) :=
  hasPages_iff_window_has_two_pages 10 25 0 (by decide) (by decide) (by decide) (by decide)

/-- C5 as stated fails: for pageLength=10, resultsCount=25, resultsStart=1000
the pages list is not empty (it holds the jump-to-first marker) and none of
its entries is current. -/
theorem one_current_refuted :
    ∃ p, buildPagination 10 25 1000 = some p ∧ p.pages ≠ [] ∧ currentCount p.pages ≠ 1 :=
  ⟨⟨"10", false, [⟨"◀", "0", false⟩]⟩, by decide, by decide, by decide⟩

/-- C5 as amended: for a positive page length, any result count and a start
offset whose page is at most the last page when results exist (as it is
whenever resultsStart < resultsCount) and whose page number plus 4 fits in 32
bits: if the pages list is not empty, exactly one of its entries is current. -/
theorem one_current_when_start_in_range (pageLength resultsCount resultsStart : Nat)
    (hpl : 0 < pageLength) (hrcW : resultsCount < UINT_MOD)
    (hin : 0 < resultsCount →
      currentPageOf pageLength resultsStart ≤ lastPageOf pageLength resultsCount)
    (hnw : currentPageOf pageLength resultsStart + 4 < UINT_MOD) :
    ∃ p, buildPagination pageLength resultsCount resultsStart = some p ∧
      (p.pages ≠ [] → currentCount p.pages = 1) := by
  rcases Nat.eq_zero_or_pos resultsCount with hrc | hrc
  · subst hrc
    exact ⟨_, buildPagination_of_zero_count pageLength resultsStart hpl, fun h => absurd rfl h⟩
  · by_cases hlp : lastPageOf pageLength resultsCount = 0
    · refine ⟨_, buildPagination_eq pageLength resultsCount resultsStart hpl hrc hrcW, ?_⟩
      intro hne
      exact absurd (if_pos hlp) hne
    · obtain ⟨p, hp, -, hpages⟩ :=
        buildPagination_multi pageLength resultsCount resultsStart hpl hrc hrcW (by omega)
      refine ⟨p, hp, fun _ => ?_⟩
      have hcp := hin hrc
      have hA : currentCount
          (if firstPageGeneratedOf pageLength resultsStart ≠ 0 then [firstMarker] else []) = 0 := by
        split <;> rfl
      have hB : currentCount
          (if lastPageGeneratedOf pageLength resultsCount resultsStart ≠
              lastPageOf pageLength resultsCount
            then [lastMarker (lastPageOf pageLength resultsCount * pageLength)] else []) = 0 := by
        split <;> rfl
      have hlg := lastPageGeneratedOf_of_no_wrap pageLength resultsCount resultsStart hnw
      have hfirst := firstPageGeneratedOf_eq pageLength resultsStart
      have hmin : currentPageOf pageLength resultsStart ≤
          min (currentPageOf pageLength resultsStart + 4) (lastPageOf pageLength resultsCount) :=
        Nat.le_min.2 ⟨by omega, hcp⟩
      rw [hpages, currentCount_append, currentCount_append, hA, hB, currentCount_windowEntries,
        if_pos ⟨by omega, by omega⟩]

theorem one_current_when_start_in_range_witness :
    ∃ p, buildPagination 10 25 0 = some p ∧ (p.pages ≠ [] → currentCount p.pages = 1) :=
  one_current_when_start_in_range 10 25 0 (by decide) (by decide) (by decide) (by decide)

/-- C6: for a positive page length and a result count spanning more than one
page, the pages list begins with the jump-to-first marker (label "◀", start
"0", not current) if and only if the first window page `max(currentPage-4, 0)`
is greater than 0; when it is, the marker is the head of the list and no
later element carries its label. -/
theorem firstMarker_iff_window_starts_late (pageLength resultsCount resultsStart : Nat)
    (hpl : 0 < pageLength) (hrc : 0 < resultsCount) (hrcW : resultsCount < UINT_MOD)
    (hmulti : lastPageOf pageLength resultsCount + 1 > 1) :
    ∃ p, buildPagination pageLength resultsCount resultsStart = some p ∧
      (p.pages.head? = some ⟨"◀", "0", false⟩ ↔
        0 < windowFirst (currentPageOf pageLength resultsStart)) ∧
      (0 < windowFirst (currentPageOf pageLength resultsStart) →
        ∃ rest, p.pages = ⟨"◀", "0", false⟩ :: rest ∧ ∀ q ∈ rest, q.label ≠ "◀") := by
  obtain ⟨p, hp, -, hpages⟩ :=
    buildPagination_multi pageLength resultsCount resultsStart hpl hrc hrcW hmulti
  refine ⟨p, hp, ?_⟩
  rw [hpages, firstPageGeneratedOf_eq, windowFirst_eq]
  have hfm : firstMarker = ⟨"◀", "0", false⟩ := by decide
  by_cases h0 : currentPageOf pageLength resultsStart - 4 = 0
  · have hlen : lastPageGeneratedOf pageLength resultsCount resultsStart + 1 - 0 =
        lastPageGeneratedOf pageLength resultsCount resultsStart + 1 := by omega
    rw [h0, if_neg (fun h : (0 : Nat) ≠ 0 => h rfl)]
    unfold windowEntries
    rw [hlen, List.range'_succ]
    refine ⟨⟨fun h => ?_, fun h => absurd h (Nat.lt_irrefl 0)⟩, fun h => absurd h (Nat.lt_irrefl 0)⟩
    have hlabel : (normalEntry pageLength (currentPageOf pageLength resultsStart) 0).label = "◀" :=
      congrArg Page.label (Option.some.inj h)
    exact absurd hlabel (to_string_ne_firstArrow _)
  · rw [if_pos h0, hfm]
    refine ⟨⟨fun _ => by omega, fun _ => rfl⟩, fun _ => ⟨_, rfl, ?_⟩⟩
    intro q hq
    rcases List.mem_append.1 hq with hw | hl
    · unfold windowEntries at hw
      obtain ⟨i, _, rfl⟩ := List.mem_map.1 hw
      exact to_string_ne_firstArrow _
    · split at hl
      · rw [List.mem_singleton.1 hl]
        show "▶" ≠ "◀"
        decide
      · exact absurd hl (List.not_mem_nil q)

theorem firstMarker_iff_window_starts_late_witness :
    ∃ p, buildPagination 10 1000 500 = some p ∧
      (p.pages.head? = some ⟨"◀", "0", false⟩ ↔ 0 < windowFirst (currentPageOf 10 500)) ∧
      (0 < windowFirst (currentPageOf 10 500) →
        ∃ rest, p.pages = ⟨"◀", "0", false⟩ :: rest ∧ ∀ q ∈ rest, q.label ≠ "◀") :=
  firstMarker_iff_window_starts_late 10 1000 500 (by decide) (by decide) (by decide) (by decide)

/-- C7: a jump-to-last marker appears although the window reaches the last
page. For pageLength = 1, resultsCount = 10 and resultsStart = 4294967295 more
than one page exists and `min(currentPage+4, lastPage)` equals `lastPage`, yet
the pages list returned by `buildPagination` ends with the marker
(label "▶", start 9): the sum `currentPage+4` wrapped to 3. -/
theorem lastMarker_added_when_sum_wraps :
    lastPageOf 1 10 + 1 > 1 ∧
    ¬ (windowLast (currentPageOf 1 4294967295) (lastPageOf 1 10) < lastPageOf 1 10) ∧
    buildPagination 1 10 4294967295 =
      some ⟨"1", false, [⟨"◀", "0", false⟩, ⟨"▶", "9", false⟩]⟩ ∧
    [(⟨"◀", "0", false⟩ : Page), ⟨"▶", "9", false⟩].getLast? =
      some ⟨"▶", to_string (lastPageOf 1 10 * 1), false⟩ := by
  decide

/-- C8: for a positive page length and a positive result count, whatever the
start offset, a single page in total (equivalently resultsCount ≤ pageLength)
gives an empty pages list and `hasPages = false`. -/
theorem buildPagination_single_page (pageLength resultsCount resultsStart : Nat)
    (hpl : 0 < pageLength) (hrc : 0 < resultsCount) (hrcW : resultsCount < UINT_MOD)
    (hone : lastPageOf pageLength resultsCount + 1 = 1) :
    resultsCount ≤ pageLength ∧
    ∃ p, buildPagination pageLength resultsCount resultsStart = some p ∧
      p.pages = [] ∧ p.hasPages = false := by
  have hlp : lastPageOf pageLength resultsCount = 0 := by omega
  constructor
  · have := (Nat.div_eq_zero_iff hpl).1 hlp
    omega
  · refine ⟨_, buildPagination_eq pageLength resultsCount resultsStart hpl hrc hrcW, if_pos hlp, ?_⟩
    have hle := lastPageGeneratedOf_le pageLength resultsCount resultsStart
    show decide (_ < _) = false
    rw [decide_eq_false_iff_not]
    omega

theorem buildPagination_single_page_witness :
    7 ≤ 10 ∧ ∃ p, buildPagination 10 7 300 = some p ∧ p.pages = [] ∧ p.hasPages = false :=
  buildPagination_single_page 10 7 300 (by decide) (by decide) (by decide) (by decide)

/-- C9: for a positive page length and any result count and start offset, the
pages list returned by `buildPagination` has at most 9 entries that are not
markers and at most 11 entries in all. -/
theorem pages_bounded (pageLength resultsCount resultsStart : Nat)
    (hpl : 0 < pageLength) (hrcW : resultsCount < UINT_MOD) :
    ∃ p, buildPagination pageLength resultsCount resultsStart = some p ∧
      (normalEntries p.pages).length ≤ 9 ∧ p.pages.length ≤ 11 := by
  rcases Nat.eq_zero_or_pos resultsCount with hrc | hrc
  · subst hrc
    exact ⟨_, buildPagination_of_zero_count pageLength resultsStart hpl,
      Nat.zero_le 9, Nat.zero_le 11⟩
  · by_cases hlp : lastPageOf pageLength resultsCount = 0
    · refine ⟨_, buildPagination_eq pageLength resultsCount resultsStart hpl hrc hrcW, ?_, ?_⟩
      · show (normalEntries (if lastPageOf pageLength resultsCount = 0 then [] else _)).length ≤ 9
        rw [if_pos hlp]; decide
      · show (if lastPageOf pageLength resultsCount = 0 then [] else _).length ≤ 11
        rw [if_pos hlp]; decide
    · obtain ⟨p, hp, -, hpages⟩ :=
        buildPagination_multi pageLength resultsCount resultsStart hpl hrc hrcW (by omega)
      have hwin : lastPageGeneratedOf pageLength resultsCount resultsStart + 1 -
          firstPageGeneratedOf pageLength resultsStart ≤ 9 := by
        have h1 : lastPageGeneratedOf pageLength resultsCount resultsStart ≤
            (currentPageOf pageLength resultsStart + 4) % UINT_MOD := Nat.min_le_left _ _
        have h2 : (currentPageOf pageLength resultsStart + 4) % UINT_MOD ≤
            currentPageOf pageLength resultsStart + 4 := Nat.mod_le _ _
        have h3 := firstPageGeneratedOf_eq pageLength resultsStart
        omega
      have hA : (if firstPageGeneratedOf pageLength resultsStart ≠ 0
          then [firstMarker] else []).length ≤ 1 := by
        split <;> simp
      have hB : (if lastPageGeneratedOf pageLength resultsCount resultsStart ≠
              lastPageOf pageLength resultsCount
            then [lastMarker (lastPageOf pageLength resultsCount * pageLength)]
            else []).length ≤ 1 := by
        split <;> simp
      have hA0 : normalEntries (if firstPageGeneratedOf pageLength resultsStart ≠ 0
          then [firstMarker] else []) = [] := by
        split
        · exact normalEntries_firstMarker
        · rfl
      have hB0 : normalEntries (if lastPageGeneratedOf pageLength resultsCount resultsStart ≠
              lastPageOf pageLength resultsCount
            then [lastMarker (lastPageOf pageLength resultsCount * pageLength)]
            else []) = [] := by
        split
        · exact normalEntries_lastMarker _
        · rfl
      refine ⟨p, hp, ?_, ?_⟩
      · rw [hpages, normalEntries_append, normalEntries_append, normalEntries_windowEntries,
          hA0, hB0, List.nil_append, List.append_nil, length_windowEntries]
        exact hwin
      · rw [hpages, List.length_append, List.length_append, length_windowEntries]
        omega

theorem pages_bounded_witness :
    ∃ p, buildPagination 10 1000 500 = some p ∧
      (normalEntries p.pages).length ≤ 9 ∧ p.pages.length ≤ 11 :=
  pages_bounded 10 1000 500 (by decide) (by decide)

/-! ## Claims about `SearchRenderer::getHtml` -/

theorem resultsLoop_error_of_mapper_error (r : SearchRenderer) (ext : Helpers) :
    ∀ (hits : List SearchHit) (results : List ResultRow),
      (∃ hit ∈ hits, ∃ e, r.mp_nameMapper hit.zimId = .error e) →
      ∃ e, resultsLoop r ext hits results = .error e := by
  intro hits
  induction hits with
  | nil => intro results h; obtain ⟨hit, hmem, _⟩ := h; exact absurd hmem (List.not_mem_nil hit)
  | cons hd tl ih =>
    intro results h
    obtain ⟨hit, hmem, e, he⟩ := h
    unfold resultsLoop
    cases hrow : resultRow r ext hd with
    | error e' => exact ⟨e', rfl⟩
    | ok row =>
      rcases List.mem_cons.1 hmem with hhd | htl
      · subst hhd
        unfold resultRow at hrow
        rw [he] at hrow
        cases hrow
      · exact ih (results ++ [row]) ⟨hit, htl, e, he⟩

/-- Whenever the name mapper raises for the archive id of some hit, `getHtml`
ends with an exception: no row is produced. -/
theorem getHtml_error_of_mapper_error (r : SearchRenderer) (ext : Helpers)
    (h : ∃ hit ∈ r.m_srs, ∃ e, r.mp_nameMapper hit.zimId = .error e) :
    ∃ e, getHtml r ext = .error e := by
  obtain ⟨e, he⟩ := resultsLoop_error_of_mapper_error r ext r.m_srs [] h
  refine ⟨e, ?_⟩
  unfold getHtml
  rw [he]
  rfl

/-- C10: an id-mapping failure is not absorbed by `getHtml`. For a renderer
over two hits whose name mapper raises for the second hit's archive id, the
loop over the hits and `getHtml` itself end with the mapper's exception,
while the template, given rows, would have rendered. -/
theorem getHtml_raises_on_unknown_archive :
    mapperKnowingOne "zim-b" = .error "std::out_of_range" ∧
    resultsLoop rendererWithUnknownArchive plainHelpers rendererWithUnknownArchive.m_srs [] =
      .error "std::out_of_range" ∧
    getHtml rendererWithUnknownArchive plainHelpers = .error "std::out_of_range" := by
  refine ⟨rfl, rfl, rfl⟩

/-! ## Claims about `HTMLDumper::dumpPlainHTML` -/

theorem booksLoop_eq (d : HTMLDumper) :
    ∀ (ids : List String) (acc : List BookRow),
      (∀ id ∈ ids, ∃ b, d.getBookById id = .ok b) →
      ∃ rows, booksLoop d ids acc = .ok (acc ++ rows) ∧
        List.Forall₂ (fun bookId row =>
          ∃ bookObj, d.getBookById bookId = .ok bookObj ∧ row = bookRow d bookId bookObj)
          ids rows := by
  intro ids
  induction ids with
  | nil => intro acc _; exact ⟨[], by simp [booksLoop, pure, Except.pure], List.Forall₂.nil⟩
  | cons id rest ih =>
    intro acc hknown
    obtain ⟨b, hb⟩ := hknown id (List.mem_cons_self id rest)
    obtain ⟨rows, hrows, hall⟩ :=
      ih (acc ++ [bookRow d id b]) (fun x hx => hknown x (List.mem_cons_of_mem id hx))
    refine ⟨bookRow d id b :: rows, ?_, List.Forall₂.cons ⟨b, hb, rfl⟩ hall⟩
    unfold booksLoop
    rw [hb]
    show booksLoop d rest (acc ++ [bookRow d id b]) = _
    rw [hrows, List.append_assoc]
    rfl

/-- C11: for every list of book ids returned by the filter, each known to the
catalog, the row-building loop of `dumpPlainHTML` ends without an exception
and yields exactly one row per id, in the same order. Each row has its title,
description, language code, icon attribute, tag list and download flag
computed from the book, and its id is the url-encoded public name, or the
empty string when the name mapper raises for that book id. -/
theorem booksLoop_one_row_per_id (d : HTMLDumper) (filteredBooks : List String)
    (hknown : ∀ id ∈ filteredBooks, ∃ b, d.getBookById id = .ok b) :
    ∃ booksData, booksLoop d filteredBooks [] = .ok booksData ∧
      booksData.length = filteredBooks.length ∧
      List.Forall₂ (fun bookId row =>
        ∃ bookObj, d.getBookById bookId = .ok bookObj ∧
          ((∃ e, d.getNameForId bookId = .error e) → row.id = "") ∧
          (∀ name, d.getNameForId bookId = .ok name → row.id = d.urlEncode name) ∧
          row.title = bookObj.title ∧
          row.description = bookObj.description ∧
          row.langCode = bookObj.commaSeparatedLanguages ∧
          row.faviconAttr = "style=background-image:url(" ++
            (d.rootLocation ++ "/catalog/v2/illustration/" ++ bookId ++ "/?size=48") ++ ")" ∧
          row.tagList = getTagList bookObj.tags ∧
          row.downloadAvailable = (bookObj.url != ""))
        filteredBooks booksData := by
  obtain ⟨rows, hrows, hall⟩ := booksLoop_eq d filteredBooks [] hknown
  refine ⟨rows, by simpa using hrows, hall.length_eq.symm, ?_⟩
  refine hall.imp ?_
  rintro bookId row ⟨bookObj, hb, rfl⟩
  refine ⟨bookObj, hb, ?_, ?_, rfl, rfl, rfl, rfl, rfl, rfl⟩
  · rintro ⟨e, he⟩
    show contentIdOf d bookId = ""
    unfold contentIdOf
    rw [he]
  · intro name hname
    show contentIdOf d bookId = d.urlEncode name
    unfold contentIdOf
    rw [hname]

theorem booksLoop_one_row_per_id_witness :
    ∃ booksData, booksLoop dumperWithUnmappedBook ["zim-a", "zim-b"] [] = .ok booksData ∧
      booksData.length = ["zim-a", "zim-b"].length ∧
      List.Forall₂ (fun bookId row =>
        ∃ bookObj, dumperWithUnmappedBook.getBookById bookId = .ok bookObj ∧
          ((∃ e, dumperWithUnmappedBook.getNameForId bookId = .error e) → row.id = "") ∧
          (∀ name, dumperWithUnmappedBook.getNameForId bookId = .ok name →
            row.id = dumperWithUnmappedBook.urlEncode name) ∧
          row.title = bookObj.title ∧
          row.description = bookObj.description ∧
          row.langCode = bookObj.commaSeparatedLanguages ∧
          row.faviconAttr = "style=background-image:url(" ++
            (dumperWithUnmappedBook.rootLocation ++ "/catalog/v2/illustration/" ++ bookId ++
              "/?size=48") ++ ")" ∧
          row.tagList = getTagList bookObj.tags ∧
          row.downloadAvailable = (bookObj.url != ""))
        ["zim-a", "zim-b"] booksData :=
  booksLoop_one_row_per_id dumperWithUnmappedBook ["zim-a", "zim-b"] (by
    intro id hid
    rcases List.mem_cons.1 hid with h | h
    · exact ⟨_, by rw [h]; rfl⟩
    · rw [List.mem_singleton.1 h]; exact ⟨_, rfl⟩)

/-- The rows of the example catalog: the book the name mapper does not know
keeps its row, with an empty id. -/
theorem booksLoop_unmapped_book :
    booksLoop dumperWithUnmappedBook ["zim-a", "zim-b"] [] = .ok
      [⟨"wikipedia_en", "Wikipedia", "The free encyclopedia", "eng",
        "style=background-image:url(/ROOT/catalog/v2/illustration/zim-a/?size=48)",
        ["wikipedia"], true⟩,
       ⟨"", "Gutenberg", "Books", "eng,fra",
        "style=background-image:url(/ROOT/catalog/v2/illustration/zim-b/?size=48)",
        ["books"], false⟩] := by
  rfl

/-! ## Claims about `getTagList` and `humanFriendlyTitle` -/

theorem tagLoop_eq (tokens : List String) :
    ∀ acc : List String,
      tagLoop tokens acc = acc ++ tokens.filter (fun t => decide (firstChar t ≠ '_')) := by
  induction tokens with
  | nil => intro acc; simp [tagLoop]
  | cons t rest ih =>
    intro acc
    unfold tagLoop
    by_cases h : firstChar t ≠ '_'
    · rw [if_pos h, ih, List.filter_cons_of_pos (by simpa using h)]
      simp
    · rw [if_neg h, ih, List.filter_cons_of_neg (by simpa using h)]

theorem splitLoop_eq (rest : List Char) :
    ∀ (token : List Char) (tokens : List String),
      splitLoop [';'] true false rest token tokens =
        tokens ++ ((List.splitOnP.go (fun c => c == ';') rest token.reverse).filter
          (fun t => !t.isEmpty)).map String.mk := by
  induction rest with
  | nil =>
    intro token tokens
    cases token <;> simp [splitLoop, List.splitOnP.go]
  | cons c rest ih =>
    intro token tokens
    unfold splitLoop
    by_cases hc : c = ';'
    · subst hc
      cases token <;> simp [ih, List.splitOnP.go]
    · have hmem : ¬ c ∈ [';'] := by simpa using hc
      rw [if_neg hmem, ih]
      simp [List.splitOnP.go, hc]

theorem split_semicolon_eq (tags : String) :
    split tags ";" true false = semicolonTokens tags := by
  unfold split semicolonTokens
  rw [show (";" : String).data = [';'] from rfl, splitLoop_eq]
  rfl

theorem firstChar_ne_iff (t : String) (ht : t.data ≠ []) (c : Char) :
    firstChar t ≠ c ↔ t.data.head? ≠ some c := by
  unfold firstChar
  cases hd : t.data with
  | nil => exact absurd hd ht
  | cons a rest => simp

theorem semicolonTokens_nonempty (tags : String) :
    ∀ t ∈ semicolonTokens tags, t.data ≠ [] := by
  intro t ht
  unfold semicolonTokens at ht
  obtain ⟨cs, hcs, rfl⟩ := List.mem_map.1 ht
  have := (List.mem_filter.1 hcs).2
  intro hnil
  simp [show cs = [] from hnil] at this

/-- C12: for every tag string, `getTagList` returns the non-empty
`;`-separated tokens whose first character is not an underscore, in their
original order and with repetitions kept; no returned token begins with an
underscore. -/
theorem getTagList_eq_visible_tokens (tags : String) :
    getTagList tags =
      (semicolonTokens tags).filter (fun t => decide (t.data.head? ≠ some '_')) ∧
    (∀ t ∈ getTagList tags, t.data ≠ [] ∧ t.data.head? ≠ some '_') ∧
    getTagList "_ftindex;wikipedia;_pictures" = ["wikipedia"] := by
  have hlist : getTagList tags =
      (semicolonTokens tags).filter (fun t => decide (t.data.head? ≠ some '_')) := by
    unfold getTagList
    rw [tagLoop_eq, split_semicolon_eq, List.nil_append]
    apply List.filter_congr
    intro t ht
    have := firstChar_ne_iff t (semicolonTokens_nonempty tags t ht) '_'
    simp only [decide_eq_decide]
    exact this
  refine ⟨hlist, ?_, by decide⟩
  intro t ht
  rw [hlist] at ht
  obtain ⟨hmem, hhead⟩ := List.mem_filter.1 ht
  exact ⟨semicolonTokens_nonempty tags t hmem, by simpa using hhead⟩

/-- C13: for every category name, `humanFriendlyTitle` keeps the length; the
character at each index is the one of the name with an underscore turned into
a space, upper-cased at index 0 and otherwise unchanged; the empty name gives
the empty string and "animals_and_plants" gives "Animals and plants". -/
theorem humanFriendlyTitle_chars (title : String) :
    (humanFriendlyTitle title).length = title.length ∧
    (∀ i : Nat, (humanFriendlyTitle title).data[i]? =
      (title.data[i]?).map (fun c =>
        if i = 0 then (if c = '_' then ' ' else c).toUpper else (if c = '_' then ' ' else c))) ∧
    humanFriendlyTitle "" = "" ∧
    humanFriendlyTitle "animals_and_plants" = "Animals and plants" := by
  refine ⟨?_, ?_, by decide, by decide⟩
  · unfold humanFriendlyTitle replaceUnderscores
    cases h : title.data with
    | nil => simp [String.length, h]
    | cons c rest => simp [String.length, h]
  · intro i
    unfold humanFriendlyTitle replaceUnderscores
    cases h : title.data with
    | nil => simp
    | cons c rest =>
      cases i with
      | zero => simp
      | succ j => simp

/-! ## The word count of a search row -/

theorem resultRow_ok (r : SearchRenderer) (ext : Helpers) (hit : SearchHit)
    (hname : ∃ n, r.mp_nameMapper hit.zimId = .ok n)
    (hlib : ∀ lib, r.mp_library = some lib → ∃ t, lib hit.zimId = .ok t) :
    ∃ id bookTitle, resultRow r ext hit = .ok
      ⟨hit.title, hit.path, hit.snippet, id, bookTitle,
        if hit.wordCount ≥ 0 then some (ext.beautifyInteger hit.wordCount.toNat) else none⟩ := by
  obtain ⟨n, hn⟩ := hname
  cases hl : r.mp_library with
  | none =>
    refine ⟨n, none, ?_⟩
    simp [resultRow, hn, hl, bind, Except.bind, pure, Except.pure]
  | some lib =>
    obtain ⟨t, ht⟩ := hlib lib hl
    refine ⟨n, some t, ?_⟩
    simp [resultRow, hn, hl, ht, bind, Except.bind, pure, Except.pure]

theorem resultsLoop_eq (r : SearchRenderer) (ext : Helpers) :
    ∀ (hits : List SearchHit) (acc : List ResultRow),
      (∀ hit ∈ hits, (∃ n, r.mp_nameMapper hit.zimId = .ok n) ∧
        (∀ lib, r.mp_library = some lib → ∃ t, lib hit.zimId = .ok t)) →
      ∃ rows, resultsLoop r ext hits acc = .ok (acc ++ rows) ∧
        List.Forall₂ (fun hit row => ∃ id bookTitle, row =
          (⟨hit.title, hit.path, hit.snippet, id, bookTitle,
            if hit.wordCount ≥ 0 then some (ext.beautifyInteger hit.wordCount.toNat)
            else none⟩ : ResultRow)) hits rows := by
  intro hits
  induction hits with
  | nil => intro acc _; exact ⟨[], by simp [resultsLoop, pure, Except.pure], List.Forall₂.nil⟩
  | cons hit rest ih =>
    intro acc hok
    obtain ⟨hname, hlib⟩ := hok hit (List.mem_cons_self hit rest)
    obtain ⟨id, bookTitle, hrow⟩ := resultRow_ok r ext hit hname hlib
    obtain ⟨rows, hrows, hall⟩ := ih (acc ++ [⟨hit.title, hit.path, hit.snippet, id, bookTitle,
        if hit.wordCount ≥ 0 then some (ext.beautifyInteger hit.wordCount.toNat) else none⟩])
      (fun x hx => hok x (List.mem_cons_of_mem hit hx))
    refine ⟨_ :: rows, ?_, List.Forall₂.cons ⟨id, bookTitle, rfl⟩ hall⟩
    unfold resultsLoop
    rw [hrow]
    show resultsLoop r ext rest _ = _
    rw [hrows, List.append_assoc]
    rfl

/-- C14: when the name mapper (and the library, if there is one) answers for
every hit, the loop of `getHtml` yields one row per hit, in order; a row
carries a `wordCount` field if and only if its hit reports a word count ≥ 0,
a negative word count gives a row without the field, and in both cases the
row's title, url and snippet are the hit's title, path and snippet. -/
theorem wordCount_iff_nonneg (r : SearchRenderer) (ext : Helpers)
    (hok : ∀ hit ∈ r.m_srs, (∃ n, r.mp_nameMapper hit.zimId = .ok n) ∧
      (∀ lib, r.mp_library = some lib → ∃ t, lib hit.zimId = .ok t)) :
    ∃ rows, resultsLoop r ext r.m_srs [] = .ok rows ∧
      List.Forall₂ (fun hit row =>
        (row.wordCount.isSome = true ↔ 0 ≤ hit.wordCount) ∧
        (hit.wordCount < 0 → row.wordCount = none) ∧
        (0 ≤ hit.wordCount →
          row.wordCount = some (ext.beautifyInteger hit.wordCount.toNat)) ∧
        row.title = hit.title ∧ row.url = hit.path ∧ row.snippet = hit.snippet)
        r.m_srs rows := by
  obtain ⟨rows, hrows, hall⟩ := resultsLoop_eq r ext r.m_srs [] hok
  refine ⟨rows, by simpa using hrows, hall.imp ?_⟩
  rintro hit row ⟨id, bookTitle, rfl⟩
  by_cases h : 0 ≤ hit.wordCount
  · refine ⟨?_, fun hneg => absurd h (by omega), fun _ => ?_, rfl, rfl, rfl⟩
    · simp [h]
    · simp [h]
  · refine ⟨?_, fun _ => ?_, fun hpos => absurd hpos h, rfl, rfl, rfl⟩
    · simp [h]
    · simp [h]

theorem wordCount_iff_nonneg_witness :
    ∃ rows, resultsLoop rendererWithUnknownWordCount plainHelpers
        rendererWithUnknownWordCount.m_srs [] = .ok rows ∧
      List.Forall₂ (fun hit row =>
        (row.wordCount.isSome = true ↔ 0 ≤ hit.wordCount) ∧
        (hit.wordCount < 0 → row.wordCount = none) ∧
        (0 ≤ hit.wordCount →
          row.wordCount = some (plainHelpers.beautifyInteger hit.wordCount.toNat)) ∧
        row.title = hit.title ∧ row.url = hit.path ∧ row.snippet = hit.snippet)
        rendererWithUnknownWordCount.m_srs rows :=
  wordCount_iff_nonneg rendererWithUnknownWordCount plainHelpers (by
    intro hit hhit
    refine ⟨⟨"wikipedia_en", ?_⟩, fun lib hlib => ?_⟩
    · rcases List.mem_cons.1 hhit with h | h
      · rw [h]; rfl
      · rw [List.mem_singleton.1 h]; rfl
    · cases hlib)

/-- The rows of the example renderer: the hit without a word count gives a
row without the field. -/
theorem resultsLoop_unknown_wordCount :
    resultsLoop rendererWithUnknownWordCount plainHelpers
        rendererWithUnknownWordCount.m_srs [] =
      .ok [⟨"Paris", "A/Paris", "capital", "wikipedia_en", none, some "120"⟩,
           ⟨"Lyon", "A/Lyon", "city", "wikipedia_en", none, none⟩] := by
  rfl

/-! ## `kiwix::join` -/

theorem joinLoop_eq_intercalate_go (sep : String) (rest : List String) :
    ∀ acc : String, joinLoop sep rest false acc = String.intercalate.go acc sep rest := by
  induction rest with
  | nil => intro acc; rfl
  | cons s rest ih =>
    intro acc
    unfold joinLoop
    rw [ih]
    rfl

theorem empty_append (s : String) : "" ++ s = s := by
  apply String.ext
  simp

theorem join_cons (s : String) (rest : List String) (sep : String) :
    join (s :: rest) sep = joinLoop sep rest false s := by
  unfold join
  show joinLoop sep rest false ("" ++ s) = _
  rw [empty_append]

/-- C15: for every list of strings and every separator, `join` gives the empty
string for the empty list, the element itself for a one-element list, and
otherwise the first element, the separator and the join of the rest: the
elements in order with the separator between consecutive ones and nowhere
else, which is `String.intercalate`. The test's `join(["a","b","c"], ";")` is
"a;b;c". -/
theorem join_eq_intercalate (list : List String) (sep : String) :
    join list sep = sep.intercalate list ∧
    join [] sep = "" ∧
    (∀ s, join [s] sep = s) ∧
    (∀ s t rest, (join (s :: t :: rest) sep).data =
      s.data ++ sep.data ++ (join (t :: rest) sep).data) ∧
    join ["a", "b", "c"] ";" = "a;b;c" := by
  have hgo : ∀ (rest : List String) (acc : String),
      (joinLoop sep rest false acc).data = acc.data ++ (joinLoop sep rest false "").data := by
    intro rest
    induction rest with
    | nil => intro acc; simp [joinLoop]
    | cons u rest ih =>
      intro acc
      show (joinLoop sep rest false ((if false = true then acc else acc ++ sep) ++ u)).data =
        acc.data ++ (joinLoop sep rest false ((if false = true then "" else "" ++ sep) ++ u)).data
      rw [ih ((if false = true then acc else acc ++ sep) ++ u),
        ih ((if false = true then "" else "" ++ sep) ++ u)]
      simp [List.append_assoc]
  refine ⟨?_, rfl, fun s => join_cons s [] sep, ?_, by decide⟩
  · cases list with
    | nil => rfl
    | cons s rest =>
      rw [join_cons, joinLoop_eq_intercalate_go]
      rfl
  · intro s t rest
    rw [join_cons, join_cons]
    show (joinLoop sep rest false ((if false = true then s else s ++ sep) ++ t)).data = _
    rw [hgo rest ((if false = true then s else s ++ sep) ++ t), hgo rest t]
    simp [List.append_assoc]

/-! ## The constructors of `SearchRenderer` -/

/-- The renderer built from a searcher is the one `fromResultSet` builds with
the two numbers exchanged: start = the estimated count, estimated count = the
start. -/
theorem fromSearcher_eq_swapped (searcher : Searcher)
    (mapper : String → Except String String) (pageLength : Nat) :
    SearchRenderer.fromSearcher searcher mapper pageLength =
      SearchRenderer.fromResultSet searcher.getSearchResultSet mapper
        searcher.getEstimatedResultCount searcher.getResultStart pageLength ∧
    (SearchRenderer.fromSearcher searcher mapper pageLength).resultStart =
      searcher.getEstimatedResultCount ∧
    (SearchRenderer.fromSearcher searcher mapper pageLength).estimatedResultCount =
      searcher.getResultStart :=
  ⟨rfl, rfl, rfl⟩

/-- C16: the constructor taking a searcher exchanges the two numbers. For a
searcher whose result start is 40 and whose estimated result count is 1000,
the renderer it builds has `resultStart` 1000 and `estimatedResultCount` 40,
whereas `SearchRenderer(srs, mapper, start, estimatedResultCount)` called with
start 40 and count 1000 has `resultStart` 40 and `estimatedResultCount` 1000;
with a page length of 20 the first paginates to the jump-to-first marker
alone, the second to a window around page 3. -/
theorem fromSearcher_exchanges_start_and_count :
    searcherOnThirdPage.getResultStart = 40 ∧
    searcherOnThirdPage.getEstimatedResultCount = 1000 ∧
    (SearchRenderer.fromSearcher searcherOnThirdPage mapperKnowingOne 20).resultStart = 1000 ∧
    (SearchRenderer.fromSearcher searcherOnThirdPage mapperKnowingOne 20).estimatedResultCount
      = 40 ∧
    (SearchRenderer.fromResultSet searcherOnThirdPage.getSearchResultSet mapperKnowingOne
      searcherOnThirdPage.getResultStart searcherOnThirdPage.getEstimatedResultCount
      20).resultStart = 40 ∧
    (SearchRenderer.fromResultSet searcherOnThirdPage.getSearchResultSet mapperKnowingOne
      searcherOnThirdPage.getResultStart searcherOnThirdPage.getEstimatedResultCount
      20).estimatedResultCount = 1000 ∧
    buildPagination 20 40 1000 = some ⟨"20", false, [⟨"◀", "0", false⟩]⟩ ∧
    buildPagination 20 1000 40 = some ⟨"20", true,
      [⟨"1", "0", false⟩, ⟨"2", "20", false⟩, ⟨"3", "40", true⟩, ⟨"4", "60", false⟩,
       ⟨"5", "80", false⟩, ⟨"6", "100", false⟩, ⟨"7", "120", false⟩,
       ⟨"▶", "980", false⟩]⟩ := by
  refine ⟨rfl, rfl, rfl, rfl, rfl, rfl, by decide, by decide⟩

/-! ## Termination and absence of wrap-around in the generated entries -/

theorem window_size_le (pl rc rs : Nat) :
    lastPageGeneratedOf pl rc rs + 1 - firstPageGeneratedOf pl rs ≤ 9 := by
  have h1 : lastPageGeneratedOf pl rc rs ≤ (currentPageOf pl rs + 4) % UINT_MOD :=
    Nat.min_le_left _ _
  have h2 : (currentPageOf pl rs + 4) % UINT_MOD ≤ currentPageOf pl rs + 4 := Nat.mod_le _ _
  have h3 := firstPageGeneratedOf_eq pl rs
  omega

/-- C17: for every 32-bit result count and every non-zero page length,
`buildPagination` returns. When there are results, `lastPageGenerated` is at
most `lastPage`, which is at most 2^32-2; the loop stops within ten
evaluations of its condition; for every counter value `i` of the loop body,
`i+1` stays below 2^32 and `i*pageLength` is at most `resultsCount-1`, so the
entry built is the one computed without reduction modulo 2^32; and
`lastPage*pageLength` is at most `resultsCount-1`. -/
theorem buildPagination_returns_without_wrap (pageLength resultsCount resultsStart : Nat)
    (hpl : pageLength ≠ 0) (hrcW : resultsCount < UINT_MOD) :
    (∃ p, buildPagination pageLength resultsCount resultsStart = some p) ∧
    (0 < resultsCount →
      lastPageGeneratedOf pageLength resultsCount resultsStart ≤
        lastPageOf pageLength resultsCount ∧
      lastPageOf pageLength resultsCount ≤ UINT_MOD - 2 ∧
      lastPageOf pageLength resultsCount * pageLength ≤ resultsCount - 1 ∧
      (∀ acc, ∃ pages,
        pageLoop pageLength (currentPageOf pageLength resultsStart)
          (lastPageGeneratedOf pageLength resultsCount resultsStart) 10
          (firstPageGeneratedOf pageLength resultsStart) acc = some pages) ∧
      ∀ i, firstPageGeneratedOf pageLength resultsStart ≤ i →
        i ≤ lastPageGeneratedOf pageLength resultsCount resultsStart →
          i + 1 < UINT_MOD ∧ i * pageLength ≤ resultsCount - 1 ∧
          pageEntry pageLength (currentPageOf pageLength resultsStart) i =
            normalEntry pageLength (currentPageOf pageLength resultsStart) i) := by
  have hpos : 0 < pageLength := Nat.pos_of_ne_zero hpl
  have hW := UINT_MOD_eq
  constructor
  · rcases Nat.eq_zero_or_pos resultsCount with hrc | hrc
    · subst hrc
      exact ⟨_, buildPagination_of_zero_count pageLength resultsStart hpos⟩
    · exact ⟨_, buildPagination_eq pageLength resultsCount resultsStart hpos hrc hrcW⟩
  · intro hrc
    have hlg := lastPageGeneratedOf_le pageLength resultsCount resultsStart
    have hlp := lastPageOf_le pageLength resultsCount
    have hmul := lastPageOf_mul_le pageLength resultsCount
    have hsize := window_size_le pageLength resultsCount resultsStart
    refine ⟨hlg, by omega, hmul, ?_, ?_⟩
    · intro acc
      exact ⟨_, pageLoop_eq pageLength _ _ (by omega) 10 _ acc (by omega)⟩
    · intro i _ hi
      have hmono : i * pageLength ≤ lastPageOf pageLength resultsCount * pageLength :=
        Nat.mul_le_mul_right pageLength (by omega)
      exact ⟨by omega, by omega,
        pageEntry_eq_normalEntry pageLength resultsCount _ i hrcW (by omega)⟩

theorem buildPagination_returns_without_wrap_witness :
    (∃ p, buildPagination 1 4294967295 4294967294 = some p) ∧
    (0 < 4294967295 →
      lastPageGeneratedOf 1 4294967295 4294967294 ≤ lastPageOf 1 4294967295 ∧
      lastPageOf 1 4294967295 ≤ UINT_MOD - 2 ∧
      lastPageOf 1 4294967295 * 1 ≤ 4294967295 - 1 ∧
      (∀ acc, ∃ pages,
        pageLoop 1 (currentPageOf 1 4294967294) (lastPageGeneratedOf 1 4294967295 4294967294) 10
          (firstPageGeneratedOf 1 4294967294) acc = some pages) ∧
      ∀ i, firstPageGeneratedOf 1 4294967294 ≤ i →
        i ≤ lastPageGeneratedOf 1 4294967295 4294967294 →
          i + 1 < UINT_MOD ∧ i * 1 ≤ 4294967295 - 1 ∧
          pageEntry 1 (currentPageOf 1 4294967294) i =
            normalEntry 1 (currentPageOf 1 4294967294) i) :=
  buildPagination_returns_without_wrap 1 4294967295 4294967294 (by decide) (by decide)

/-! ## Reading the start offsets back as numbers -/

theorem digitChar_value (d : Nat) (h : d < 10) : (Nat.digitChar d).toNat - 48 = d := by
  interval_cases d <;> rfl

theorem toDigitsCore_value (fuel : Nat) :
    ∀ n : Nat, n < fuel →
      ∃ digits : List Char,
        (∀ acc, Nat.toDigitsCore 10 fuel n acc = digits ++ acc) ∧
        digits.foldl (fun value c => value * 10 + (c.toNat - 48)) 0 = n := by
  induction fuel with
  | zero => intro n h; omega
  | succ k ih =>
    intro n hn
    by_cases h0 : n / 10 = 0
    · refine ⟨[Nat.digitChar (n % 10)], fun acc => ?_, ?_⟩
      · simp [Nat.toDigitsCore, h0]
      · have hlt : n < 10 := by omega
        simp only [List.foldl_cons, List.foldl_nil, Nat.zero_mul, Nat.zero_add]
        rw [digitChar_value _ (Nat.mod_lt _ (by decide))]
        omega
    · obtain ⟨digits, hdigits, hval⟩ := ih (n / 10) (by omega)
      refine ⟨digits ++ [Nat.digitChar (n % 10)], fun acc => ?_, ?_⟩
      · simp [Nat.toDigitsCore, h0, hdigits]
      · rw [List.foldl_append, hval]
        simp only [List.foldl_cons, List.foldl_nil]
        rw [digitChar_value _ (Nat.mod_lt _ (by decide))]
        omega

theorem decimalValue_to_string (n : Nat) : decimalValue (to_string n) = n := by
  obtain ⟨digits, hdigits, hval⟩ := toDigitsCore_value (n + 1) n (by omega)
  have hdata : (to_string n).data = digits := by
    simp [to_string, Nat.repr, Nat.toDigits, List.asString, hdigits]
  unfold decimalValue
  rw [hdata, hval]

theorem startValue_firstMarker : startValue firstMarker = 0 :=
  decimalValue_to_string 0

theorem startValue_lastMarker (s : Nat) : startValue (lastMarker s) = s :=
  decimalValue_to_string s

theorem startValue_normalEntry (pl cp i : Nat) : startValue (normalEntry pl cp i) = i * pl :=
  decimalValue_to_string (i * pl)

theorem startValue_windowEntries (pl cp lo hi : Nat) :
    (windowEntries pl cp lo hi).map startValue =
      (List.range' lo (hi + 1 - lo)).map (fun i => i * pl) := by
  unfold windowEntries
  rw [List.map_map]
  apply List.map_congr_left
  intro i _
  exact startValue_normalEntry pl cp i

/-- The page indices behind the page list, markers included: 0 for the
jump-to-first marker, the window, `lastPage` for the jump-to-last marker. They
increase strictly and none exceeds `lastPage`. -/
theorem page_indices_sorted (first lastGen lp : Nat) (hlg : lastGen ≤ lp) :
    ((if first ≠ 0 then [0] else []) ++ List.range' first (lastGen + 1 - first) ++
        (if lastGen ≠ lp then [lp] else [])).Pairwise (fun a b => a < b) ∧
    ∀ i ∈ (if first ≠ 0 then [0] else []) ++ List.range' first (lastGen + 1 - first) ++
        (if lastGen ≠ lp then [lp] else []), i ≤ lp := by
  have hrange : (List.range' first (lastGen + 1 - first)).Pairwise (fun a b => a < b) :=
    List.pairwise_lt_range' first (lastGen + 1 - first)
  have hmem : ∀ i ∈ List.range' first (lastGen + 1 - first), first ≤ i ∧ i ≤ lastGen := by
    intro i hi
    have := List.mem_range'_1.1 hi
    omega
  constructor
  · rw [List.pairwise_append, List.pairwise_append]
    refine ⟨⟨?_, hrange, ?_⟩, ?_, ?_⟩
    · split
      · exact List.pairwise_singleton _ _
      · exact List.Pairwise.nil
    · intro a ha b hb
      split at ha
      · rw [List.mem_singleton.1 ha]
        have := hmem b hb
        omega
      · exact absurd ha (List.not_mem_nil a)
    · split
      · exact List.pairwise_singleton _ _
      · exact List.Pairwise.nil
    · intro a ha b hb
      split at hb
      · rename_i hne
        rw [List.mem_singleton.1 hb]
        rcases List.mem_append.1 ha with h | h
        · split at h
          · rw [List.mem_singleton.1 h]; omega
          · exact absurd h (List.not_mem_nil a)
        · have := hmem a h
          omega
      · exact absurd hb (List.not_mem_nil b)
  · intro i hi
    rcases List.mem_append.1 hi with h | h
    · rcases List.mem_append.1 h with h | h
      · split at h
        · rw [List.mem_singleton.1 h]; omega
        · exact absurd h (List.not_mem_nil i)
      · have := hmem i h
        omega
    · split at h
      · rw [List.mem_singleton.1 h]
      · exact absurd h (List.not_mem_nil i)

/-- C20: for a positive page length, at least one result and any start
offset, the numeric start offsets of the entries of the pages list returned by
`buildPagination`, markers included, increase strictly along the list, and
each is a multiple of the page length and less than the result count. -/
theorem start_offsets_increasing (pageLength resultsCount resultsStart : Nat)
    (hpl : 0 < pageLength) (hrc : 0 < resultsCount) (hrcW : resultsCount < UINT_MOD) :
    ∃ p, buildPagination pageLength resultsCount resultsStart = some p ∧
      (p.pages.map startValue).Pairwise (fun a b => a < b) ∧
      ∀ q ∈ p.pages, pageLength ∣ startValue q ∧ startValue q < resultsCount := by
  by_cases hlp : lastPageOf pageLength resultsCount = 0
  · refine ⟨_, buildPagination_eq pageLength resultsCount resultsStart hpl hrc hrcW, ?_, ?_⟩
    · show ((if lastPageOf pageLength resultsCount = 0 then [] else _).map startValue).Pairwise _
      rw [if_pos hlp]
      exact List.Pairwise.nil
    · intro q hq
      have hq2 : q ∈ (if lastPageOf pageLength resultsCount = 0 then ([] : List Page) else _) := hq
      rw [if_pos hlp] at hq2
      exact absurd hq2 (List.not_mem_nil q)
  · obtain ⟨p, hp, -, hpages⟩ :=
      buildPagination_multi pageLength resultsCount resultsStart hpl hrc hrcW (by omega)
    have hlg := lastPageGeneratedOf_le pageLength resultsCount resultsStart
    have hmul := lastPageOf_mul_le pageLength resultsCount
    obtain ⟨hsorted, hbound⟩ := page_indices_sorted (firstPageGeneratedOf pageLength resultsStart)
      (lastPageGeneratedOf pageLength resultsCount resultsStart)
      (lastPageOf pageLength resultsCount) hlg
    have hvalues : p.pages.map startValue =
        ((if firstPageGeneratedOf pageLength resultsStart ≠ 0 then [0] else []) ++
          List.range' (firstPageGeneratedOf pageLength resultsStart)
            (lastPageGeneratedOf pageLength resultsCount resultsStart + 1 -
              firstPageGeneratedOf pageLength resultsStart) ++
          (if lastPageGeneratedOf pageLength resultsCount resultsStart ≠
              lastPageOf pageLength resultsCount
            then [lastPageOf pageLength resultsCount] else [])).map
          (fun i => i * pageLength) := by
      rw [hpages, List.map_append, List.map_append, startValue_windowEntries,
        List.map_append, List.map_append]
      congr 1
      · congr 1
        split
        · simp [startValue_firstMarker]
        · rfl
      · split
        · simp [startValue_lastMarker]
        · rfl
    refine ⟨p, hp, ?_, ?_⟩
    · rw [hvalues]
      exact hsorted.map _ (fun a b hab => Nat.mul_lt_mul_of_pos_right hab hpl)
    · intro q hq
      have hmem : startValue q ∈ p.pages.map startValue := List.mem_map_of_mem _ hq
      rw [hvalues] at hmem
      obtain ⟨i, hi, hiq⟩ := List.mem_map.1 hmem
      have hle := hbound i hi
      have hmono : i * pageLength ≤ lastPageOf pageLength resultsCount * pageLength :=
        Nat.mul_le_mul_right pageLength hle
      rw [← hiq]
      exact ⟨Dvd.intro_left i rfl, by omega⟩

theorem start_offsets_increasing_witness :
    ∃ p, buildPagination 10 1000 500 = some p ∧
      (p.pages.map startValue).Pairwise (fun a b => a < b) ∧
      ∀ q ∈ p.pages, 10 ∣ startValue q ∧ startValue q < 1000 :=
  start_offsets_increasing 10 1000 500 (by decide) (by decide) (by decide)

/-! ## Start offsets inside the result set -/

theorem currentPageOf_le_lastPageOf (pl rc rs : Nat) (hrs : rs < rc) :
    currentPageOf pl rs ≤ lastPageOf pl rc :=
  Nat.div_le_div_right (by omega)

theorem lastPageOf_eq_zero_iff (pl rc : Nat) (hpl : 0 < pl) (hrc : 0 < rc) :
    lastPageOf pl rc = 0 ↔ rc ≤ pl := by
  unfold lastPageOf
  rw [Nat.div_eq_zero_iff hpl]
  omega

theorem mem_pages_cases (pl rc rs : Nat) (q : Page)
    (hq : q ∈ (if firstPageGeneratedOf pl rs ≠ 0 then [firstMarker] else []) ++
      windowEntries pl (currentPageOf pl rs) (firstPageGeneratedOf pl rs)
        (lastPageGeneratedOf pl rc rs) ++
      (if lastPageGeneratedOf pl rc rs ≠ lastPageOf pl rc
        then [lastMarker (lastPageOf pl rc * pl)] else [])) :
    q = firstMarker ∨
    (∃ i, firstPageGeneratedOf pl rs ≤ i ∧ i ≤ lastPageGeneratedOf pl rc rs ∧
      q = normalEntry pl (currentPageOf pl rs) i) ∨
    q = lastMarker (lastPageOf pl rc * pl) := by
  rcases List.mem_append.1 hq with h | h
  · rcases List.mem_append.1 h with h | h
    · split at h
      · exact Or.inl (List.mem_singleton.1 h)
      · exact absurd h (List.not_mem_nil q)
    · unfold windowEntries at h
      obtain ⟨i, hi, rfl⟩ := List.mem_map.1 h
      have := List.mem_range'_1.1 hi
      exact Or.inr (Or.inl ⟨i, by omega, by omega, rfl⟩)
  · split at h
    · exact Or.inr (Or.inr (List.mem_singleton.1 h))
    · exact absurd h (List.not_mem_nil q)

/-- Without wrap-around of `currentPage+4` and with the start offset inside
the result set, `hasPages` tells whether more than one page exists, and so
does the pages list being non-empty. -/
theorem hasPages_iff_several_pages_of_no_wrap (pl rc rs : Nat) (hpl : 0 < pl)
    (hrs : rs < rc) (hrcW : rc < UINT_MOD) (hnw : currentPageOf pl rs + 4 < UINT_MOD) :
    ∃ p, buildPagination pl rc rs = some p ∧
      (p.hasPages = true ↔ rc > pl) ∧ (rc > pl ↔ p.pages ≠ []) := by
  have hrc : 0 < rc := by omega
  have hcp := currentPageOf_le_lastPageOf pl rc rs hrs
  have hzero := lastPageOf_eq_zero_iff pl rc hpl hrc
  have hfirst := firstPageGeneratedOf_eq pl rs
  have hlast := lastPageGeneratedOf_of_no_wrap pl rc rs hnw
  have hmin : min (currentPageOf pl rs + 4) (lastPageOf pl rc) ≤ lastPageOf pl rc :=
    Nat.min_le_right _ _
  have hmin2 : currentPageOf pl rs ≤ min (currentPageOf pl rs + 4) (lastPageOf pl rc) :=
    Nat.le_min.2 ⟨by omega, hcp⟩
  refine ⟨_, buildPagination_eq pl rc rs hpl hrc hrcW, ?_, ?_⟩
  · show decide (firstPageGeneratedOf pl rs < lastPageGeneratedOf pl rc rs) = true ↔ _
    rw [decide_eq_true_iff, hfirst, hlast]
    constructor
    · intro h
      by_contra hle
      have := hzero.2 (by omega)
      omega
    · intro h
      have hne : lastPageOf pl rc ≠ 0 := fun h0 => by have := hzero.1 h0; omega
      rcases Nat.le_total (currentPageOf pl rs + 4) (lastPageOf pl rc) with hc | hc
      · rw [Nat.min_eq_left hc]; omega
      · rw [Nat.min_eq_right hc]; omega
  · show _ ↔ (if lastPageOf pl rc = 0 then [] else _) ≠ []
    constructor
    · intro h
      have hne : lastPageOf pl rc ≠ 0 := fun h0 => by have := hzero.1 h0; omega
      rw [if_neg hne]
      intro hnil
      have hlen := congrArg List.length hnil
      rw [List.length_append, List.length_append, length_windowEntries, hfirst, hlast] at hlen
      simp only [List.length_nil] at hlen
      omega
    · intro h
      by_contra hle
      exact h (if_pos (hzero.2 (by omega)))

/-- Without wrap-around of `currentPage+4`, with the start offset inside the
result set and more than one page, the entry of the current page is among the
normal entries, it is the only entry flagged current, and no marker is
flagged current. -/
theorem current_page_unique_of_no_wrap (pl rc rs : Nat) (hpl : 0 < pl)
    (hrs : rs < rc) (hseveral : rc > pl) (hrcW : rc < UINT_MOD)
    (hnw : currentPageOf pl rs + 4 < UINT_MOD) :
    ∃ p, buildPagination pl rc rs = some p ∧
      normalEntry pl (currentPageOf pl rs) (currentPageOf pl rs) ∈ normalEntries p.pages ∧
      currentCount p.pages = 1 ∧
      (∀ q ∈ p.pages, q.current = true →
        q = normalEntry pl (currentPageOf pl rs) (currentPageOf pl rs)) ∧
      (∀ q ∈ p.pages, q.isMarker = true → q.current = false) := by
  have hrc : 0 < rc := by omega
  have hcp := currentPageOf_le_lastPageOf pl rc rs hrs
  have hne : lastPageOf pl rc ≠ 0 := fun h0 => by
    have := (lastPageOf_eq_zero_iff pl rc hpl hrc).1 h0
    omega
  have hfirst := firstPageGeneratedOf_eq pl rs
  have hlast := lastPageGeneratedOf_of_no_wrap pl rc rs hnw
  have hmin2 : currentPageOf pl rs ≤ min (currentPageOf pl rs + 4) (lastPageOf pl rc) :=
    Nat.le_min.2 ⟨by omega, hcp⟩
  obtain ⟨p, hp, -, hpages⟩ := buildPagination_multi pl rc rs hpl hrc hrcW (by omega)
  have hwin : normalEntry pl (currentPageOf pl rs) (currentPageOf pl rs) ∈
      windowEntries pl (currentPageOf pl rs) (firstPageGeneratedOf pl rs)
        (lastPageGeneratedOf pl rc rs) := by
    unfold windowEntries
    exact List.mem_map_of_mem _ (List.mem_range'_1.2 (by omega))
  refine ⟨p, hp, ?_, ?_, ?_, ?_⟩
  · rw [hpages, normalEntries_append, normalEntries_append, normalEntries_windowEntries]
    exact List.mem_append_left _ (List.mem_append_right _ hwin)
  · have hA : currentCount
        (if firstPageGeneratedOf pl rs ≠ 0 then [firstMarker] else []) = 0 := by
      split <;> rfl
    have hB : currentCount
        (if lastPageGeneratedOf pl rc rs ≠ lastPageOf pl rc
          then [lastMarker (lastPageOf pl rc * pl)] else []) = 0 := by
      split <;> rfl
    rw [hpages, currentCount_append, currentCount_append, hA, hB, currentCount_windowEntries,
      if_pos ⟨by omega, by omega⟩]
  · intro q hq hcur
    rw [hpages] at hq
    rcases mem_pages_cases pl rc rs q hq with h | ⟨i, _, _, h⟩ | h
    · rw [h] at hcur; exact absurd hcur (by decide)
    · rw [h] at hcur ⊢
      have hi : i = currentPageOf pl rs := by simpa [normalEntry] using hcur
      rw [hi]
    · rw [h] at hcur; exact absurd hcur (by simp [lastMarker])
  · intro q hq hmark
    rw [hpages] at hq
    rcases mem_pages_cases pl rc rs q hq with h | ⟨i, _, _, h⟩ | h
    · rw [h]; rfl
    · rw [h, normalEntry_not_marker] at hmark
      exact absurd hmark (by decide)
    · rw [h]; rfl

/-- C18: `hasPages` is false although more than one page exists. For
pageLength = 1, resultsCount = 4294967295 and resultsStart = 4294967292 the
start offset lies inside the result set and resultsCount > pageLength, the
pages list returned by `buildPagination` is not empty (it holds the two jump
markers), and yet `hasPages` is false: the sum `currentPage+4` wrapped to 0. -/
theorem hasPages_false_when_sum_wraps :
    (4294967292 : Nat) < 4294967295 ∧ (4294967295 : Nat) > 1 ∧
    ∃ p, buildPagination 1 4294967295 4294967292 = some p ∧
      p.hasPages = false ∧ p.pages ≠ [] :=
  ⟨by decide, by decide,
    ⟨"1", false, [⟨"◀", "0", false⟩, ⟨"▶", "4294967294", false⟩]⟩, by decide, rfl, by decide⟩

/-- C19: no entry is current although the start offset is inside the result
set. For pageLength = 1, resultsCount = 4294967295 and resultsStart =
4294967292 (inside the result set, more than one page) the pages list
returned by `buildPagination` has no normal entry, hence not the entry of the
page 4294967292 that contains the start offset, and none of its entries is
flagged current: the sum `currentPage+4` wrapped to 0. -/
theorem current_page_missing_when_sum_wraps :
    (4294967292 : Nat) < 4294967295 ∧ (4294967295 : Nat) > 1 ∧
    currentPageOf 1 4294967292 = 4294967292 ∧
    ∃ p, buildPagination 1 4294967295 4294967292 = some p ∧
      normalEntries p.pages = [] ∧
      normalEntry 1 4294967292 4294967292 ∉ p.pages ∧
      currentCount p.pages = 0 :=
  ⟨by decide, by decide, by decide,
    ⟨"1", false, [⟨"◀", "0", false⟩, ⟨"▶", "4294967294", false⟩]⟩,
    by decide, by decide, by decide, by decide⟩

end kiwix
